import Mathlib

/-!
Verification development for the generic data-access and error-normalization
layer of the `project-template` backend.

The development shallowly embeds:
* the query-parameter decoders of `src/common/schema/transaction.schema.ts`
  (`filterParamsDecoder`, `sortParamsDecoder`, `getNonFilterableFields`,
  `queryToPagination`, `resultToPagination`),
* both `BaseRepository` variants found in the repository (referred to here as
  variant `A` and variant `B`), including the dual find/aggregate listing
  operation `getAllData`,
* the exception classifier `AllExceptionsFilter.formatException`.

JavaScript runtime values handled by this code are modelled by the inductive
type `JVal` (JSON-like data plus the `ObjectId`, `Date` and `RegExp` objects
the decoder creates, plus `undefined`).  JavaScript numbers are modelled as
exact rationals, extended with `NaN`/`±Infinity` (type `JsNum`) where the
pagination arithmetic can produce them.  The storage engine (MongoDB) is
modelled denotationally: a collection is a list of documents, `find` filters
the list, sorting is stable, and the aggregation stages emitted by
`getAllData` are interpreted by `runPipeline` over the same document model.
-/

namespace Spec2Proof

/-- JavaScript values manipulated by the decoder and repository layer:
JSON data plus the object kinds the code constructs (`ObjectId`, `Date`
holding UTC milliseconds, `RegExp`) and `undefined`. -/
inductive JVal where
  | null
  | undefined
  | bool (b : Bool)
  | num (q : ℚ)
  | str (s : String)
  | oid (hex : String)
  | date (ms : ℤ)
  | regexp (pat : JVal) (flags : String)
  | arr (xs : List JVal)
  | obj (kvs : List (String × JVal))

mutual

/-- Structural (JavaScript deep-) equality test on `JVal`. -/
def jbeq : JVal → JVal → Bool
  | .null, .null => true
  | .undefined, .undefined => true
  | .bool a, .bool b => a == b
  | .num a, .num b => a == b
  | .str a, .str b => a == b
  | .oid a, .oid b => a == b
  | .date a, .date b => a == b
  | .regexp p f, .regexp p' f' => jbeq p p' && f == f'
  | .arr xs, .arr ys => jbeqList xs ys
  | .obj xs, .obj ys => jbeqEntries xs ys
  | _, _ => false

def jbeqList : List JVal → List JVal → Bool
  | [], [] => true
  | x :: xs, y :: ys => jbeq x y && jbeqList xs ys
  | _, _ => false

def jbeqEntries : List (String × JVal) → List (String × JVal) → Bool
  | [], [] => true
  | (k, v) :: xs, (k', v') :: ys => k == k' && jbeq v v' && jbeqEntries xs ys
  | _, _ => false

end

instance : BEq JVal := ⟨jbeq⟩

instance : Inhabited JVal := ⟨.undefined⟩

/-- Property lookup on an object value (`o[k]`), `none` when the key is
absent or the value is not an object. -/
def objGet (v : JVal) (k : String) : Option JVal :=
  match v with
  | .obj kvs => (kvs.find? (fun kv => kv.1 == k)).map (·.2)
  | _ => none

/-- Replace the value of key `k` if present (keeping its position),
otherwise append the binding; the semantics of `{...o, k: v}` and of
JavaScript property assignment on key order. -/
def upsertKV (kvs : List (String × JVal)) (k : String) (v : JVal) :
    List (String × JVal) :=
  if kvs.any (fun kv => kv.1 == k) then
    kvs.map (fun kv => if kv.1 == k then (k, v) else kv)
  else kvs ++ [(k, v)]

/-- Remove the listed keys from an object value; non-objects are returned
unchanged (the semantics of a `$unset` / exclusion projection on one
document). -/
def removeKeys (fields : List String) (v : JVal) : JVal :=
  match v with
  | .obj kvs => .obj (kvs.filter (fun kv => ¬ fields.contains kv.1))
  | _ => v

/-- Does `typeof v` evaluate to the string `'object'`? (`null`, arrays,
plain objects and all object instances do; primitives and `undefined`
do not.) -/
def typeofIsObject : JVal → Bool
  | .null | .oid _ | .date _ | .regexp _ _ | .arr _ | .obj _ => true
  | _ => false

/-- JavaScript truthiness of a value. -/
def jsTruthy : JVal → Bool
  | .null | .undefined => false
  | .bool b => b
  | .num q => q != 0
  | .str s => s != ""
  | _ => true

/-- Property access `v.k` as the code performs it inside a `try` block:
accessing a property of `null`/`undefined` throws (modelled by `Except.error`),
an absent property on anything else evaluates to `undefined`. -/
def jsMember (v : JVal) (k : String) : Except Unit JVal :=
  match v with
  | .null | .undefined => .error ()
  | .obj _ => .ok ((objGet v k).getD .undefined)
  | _ => .ok .undefined

/-- Keys enumerated by a JavaScript `for ... in` loop together with the
corresponding values: an object's own keys, an array's / string's indices,
and nothing for other primitives. -/
def jsForInEntries : JVal → List (String × JVal)
  | .obj kvs => kvs
  | .arr xs => (List.range xs.length).zip xs |>.map (fun p => (toString p.1, p.2))
  | .str s => (List.range s.length).zip (s.data.map (fun c => JVal.str (String.mk [c])))
      |>.map (fun p => (toString p.1, p.2))
  | _ => []

/-! ### Character and string helpers (faithful models of the JS string
operations used by the decoders) -/

/-- Is `c` a hexadecimal digit (the character class `[a-fA-F0-9]`)? -/
def isHexChar (c : Char) : Bool :=
  c.isDigit || ('a' ≤ c && c ≤ 'f') || ('A' ≤ c && c ≤ 'F')

/-- The test `/^[a-fA-F0-9]{24}$/.test(s)`; every such string also passes
`mongoose.isValidObjectId`. -/
def isObjectIdHex (s : String) : Bool :=
  s.data.length == 24 && s.data.all isHexChar

/-- Numeric value of a non-empty all-digit character list, `none` otherwise
(the exact-parse fragment of JavaScript `Number(...)` used on the pieces of a
`YYYY-MM-DD` string). -/
def decDigits? (cs : List Char) : Option ℕ :=
  if cs ≠ [] && cs.all Char.isDigit then
    some (cs.foldl (fun a c => a * 10 + (c.toNat - '0'.toNat)) 0)
  else none

/-- Split a character list on every occurrence of a separator character
(the behavior of `s.split('-')`). -/
def splitOnChar (sep : Char) : List Char → List (List Char)
  | [] => [[]]
  | c :: cs =>
    if c = sep then [] :: splitOnChar sep cs
    else
      match splitOnChar sep cs with
      | [] => [[c]]
      | h :: t => (c :: h) :: t

/-- Split a character list on every occurrence of the two-character
separator `__` (the behavior of `rawKey.split('__')`, left-to-right,
non-overlapping). -/
def splitDunder : List Char → List (List Char)
  | [] => [[]]
  | '_' :: '_' :: cs => [] :: splitDunder cs
  | c :: cs =>
    match splitDunder cs with
    | [] => [[c]]
    | h :: t => (c :: h) :: t

/-! ### Proleptic-Gregorian UTC date arithmetic, modelling `Date.UTC` -/

/-- Gregorian leap-year test. -/
def isLeap (y : ℕ) : Bool :=
  (y % 4 == 0 && y % 100 != 0) || y % 400 == 0

/-- Number of days in the given month (1-indexed) of the given year. -/
def daysInMonth (y m : ℕ) : ℕ :=
  if m = 2 then (if isLeap y then 29 else 28)
  else if m = 4 ∨ m = 6 ∨ m = 9 ∨ m = 11 then 30
  else 31

/-- Days in all years `0, …, y-1` of the proleptic Gregorian calendar. -/
def daysBeforeYear (y : ℕ) : ℕ :=
  365 * y + (y + 3) / 4 - (y + 99) / 100 + (y + 399) / 400

/-- Days between January 1 and the first day of month `m` (1-indexed) of
year `y`. -/
def daysBeforeMonth (y m : ℕ) : ℕ :=
  (match m with
   | 1 => 0 | 2 => 31 | 3 => 59 | 4 => 90 | 5 => 120 | 6 => 151
   | 7 => 181 | 8 => 212 | 9 => 243 | 10 => 273 | 11 => 304 | _ => 334)
  + (if 2 < m ∧ isLeap y then 1 else 0)

/-- UTC milliseconds of `(y, m, day)` where `m` is 1-indexed and `day` is an
arbitrary integer day offset (day 1 is the first of the month; out-of-range
values roll over, as `Date.UTC` normalizes them). -/
def utcMillis (y m : ℕ) (day : ℤ) : ℤ :=
  (((daysBeforeYear y + daysBeforeMonth y m : ℕ) : ℤ) + (day - 1)
    - (daysBeforeYear 1970 : ℕ)) * 86400000

/-- The value `Date.UTC(y, mIdx, day, 0, 0, 0)` with `mIdx` the JavaScript
0-indexed month.  Per ECMAScript, the year argument first goes through
`MakeFullYear` — values `0 ≤ y ≤ 99` denote `1900 + y` — and month overflow
is then normalized into the (adjusted) year. -/
def dateUTC (y mIdx : ℕ) (day : ℤ) : ℤ :=
  utcMillis ((if y ≤ 99 then 1900 + y else y) + mIdx / 12) (mIdx % 12 + 1) day

/-- Reading of a string as a `YYYY-MM-DD` calendar date: split on `-`,
require three all-digit components naming a real calendar date.  This is the
model of the code's `isValidDate` gate followed by
`value.split('-').map(Number)`, restricted to the calendar-date grammar the
specification assigns to date coercion; other date-like strings accepted by
the JavaScript `Date` constructor are outside the scope of the claims. -/
def toYMD (s : String) : Option (ℕ × ℕ × ℕ) :=
  match splitOnChar '-' s.data with
  | [ys, ms, ds] =>
    match decDigits? ys, decDigits? ms, decDigits? ds with
    | some y, some m, some d =>
      if 1 ≤ m ∧ m ≤ 12 ∧ 1 ≤ d ∧ d ≤ daysInMonth y m then some (y, m, d)
      else none
    | _, _, _ => none
  | _ => none

/-! ### The filter decoder (`filterParamsDecoder` and its helpers) -/

/-- Value coercion `parseValue(field, value, operator)`:
a 24-hex string becomes an `ObjectId`; a calendar-date string becomes, for
operator `day`, the object `{$gte: Date.UTC(y, m-1, d), $lt: Date.UTC(y, m-1, d+1)}`,
for operator `month` the object `{$gte: Date.UTC(y, m-1, 1), $lt: Date.UTC(y, m, 1)}`,
and otherwise the instant `Date.UTC(y, m-1, d)`; anything else passes through
unchanged. -/
def parseValue (_field : String) (value : JVal) (operator : String) : JVal :=
  match value with
  | .str s =>
    if isObjectIdHex s then .oid s
    else
      match toYMD s with
      | some (y, m, d) =>
        if operator = "day" then
          .obj [("$gte", .date (dateUTC y (m - 1) d)),
                ("$lt", .date (dateUTC y (m - 1) (d + 1)))]
        else if operator = "month" then
          .obj [("$gte", .date (dateUTC y (m - 1) 1)),
                ("$lt", .date (dateUTC y m 1))]
        else .date (dateUTC y (m - 1) d)
      | none => value
  | _ => value

/-- The condition object one `field__op` entry contributes inside
`buildGroup`.  `arrayForm` selects the array-of-objects branch of the source
(whose `like` case builds `{$regex: value, $options: 'i'}` instead of
`new RegExp(value, 'i')`); all other cases coincide between the two branches
(in the object branch, `month` falls through to `day`, which builds the same
condition).  The `Except` layer models the `TypeError` thrown when the code
reads `.$gte`/`.$lt` off `null` (a `null`-valued entry), which the decoder's
`catch` later converts into the invalid-filter-format failure.  An entry with
an unrecognized operator leaves `condition` at its initial value `{}`, which
is still pushed onto the group's fragment list. -/
def condOfEntry (arrayForm : Bool) (field op : String) (value : JVal) :
    Except Unit JVal := do
  let parsed := parseValue field value op
  match op with
  | "eq" =>
    if typeofIsObject parsed then
      let _ ← jsMember parsed "$gte"
      pure (.obj [(field, parsed)])
    else pure (.obj [(field, parsed)])
  | "like" =>
    if arrayForm then
      pure (.obj [(field, .obj [("$regex", value), ("$options", .str "i")])])
    else pure (.obj [(field, .obj [("$regex", .regexp value "i")])])
  | "in" =>
    let values := match value with | .arr xs => xs | _ => [value]
    pure (.obj [(field, .obj [("$in", .arr (values.map (fun v => parseValue field v "eq")))])])
  | "gt" => pure (.obj [(field, .obj [("$gt", parsed)])])
  | "lt" => pure (.obj [(field, .obj [("$lt", parsed)])])
  | "gte" => pure (.obj [(field, .obj [("$gte", parsed)])])
  | "lte" => pure (.obj [(field, .obj [("$lte", parsed)])])
  | "ne" => pure (.obj [(field, .obj [("$ne", parsed)])])
  | "month" | "day" => do
    let g ← jsMember parsed "$gte"
    let l ← jsMember parsed "$lt"
    pure (.obj [(field, .obj [("$gte", g), ("$lt", l)])])
  | _ => pure (.obj [])

/-- Field name and operator of a raw key: `rawKey.split('__')` destructured
as `[field, op = 'eq']`. -/
def splitFieldOp (rawKey : String) : String × String :=
  match splitDunder rawKey.data with
  | [] => ("", "eq")
  | [f] => (String.mk f, "eq")
  | f :: o :: _ => (String.mk f, String.mk o)

/-- Condition objects contributed by all entries of one `for ... in`
iteration target. -/
def condsOfItem (arrayForm : Bool) (item : JVal) : Except Unit (List JVal) :=
  (jsForInEntries item).mapM (fun kv =>
    let fo := splitFieldOp kv.1
    condOfEntry arrayForm fo.1 fo.2 kv.2)

/-- The `buildGroup` helper: an array group maps every object in the array
through the entry loop (array branch), anything else is iterated directly
(object branch); the results are collected in order into `queryParts`. -/
def buildGroup (group : JVal) : Except Unit (List JVal) :=
  match group with
  | .arr items => do
    let parts ← items.mapM (condsOfItem true)
    pure parts.flatten
  | _ => condsOfItem false group

/-- Input to `filterParamsDecoder` as seen after
`JSON.parse(filters.replace(/'/g, '"'))`: `absent` models a falsy `filters`
string (the decoder returns `{}` before parsing), `unparsable` a string on
which `JSON.parse` throws, and `parsed v` a successful parse producing `v`.
The textual JSON reader itself is a JavaScript builtin and is not
re-implemented. -/
inductive RawFilter where
  | absent
  | unparsable
  | parsed (v : JVal)

/-- Failures surfaced by the query decoding pipeline: the two plain
`{status: 400, message: …}` objects thrown by the filter / sort decoders, and
the `BadRequestException` thrown by the allow-list check. -/
inductive RepoError where
  | invalidFilterFormat
  | badSortFormat
  | fieldNotFilterable (msg : String)
  | jsTypeError

/-- The decoder `filterParamsDecoder`: absent input yields `{}`; a parse
failure, or any exception raised while building the groups (reading `and` /
`or` off a non-object parse result, or `.$gte` off `null`), is caught and
re-thrown as `{status: 400, message: 'Invalid filter format'}`; otherwise the
`$and` / `$or` fragment lists are assembled and only non-empty connectives are
included in the resulting query object. -/
def filterParamsDecoder (filters : RawFilter) : Except RepoError JVal :=
  match filters with
  | .absent => .ok (.obj [])
  | .unparsable => .error .invalidFilterFormat
  | .parsed decoded =>
    match (do
      let andRaw ← jsMember decoded "and"
      let andConditions ← buildGroup (if jsTruthy andRaw then andRaw else .obj [])
      let orRaw ← jsMember decoded "or"
      let orConditions ← buildGroup (if jsTruthy orRaw then orRaw else .obj [])
      let query :=
        (if andConditions.length > 0 then [("$and", JVal.arr andConditions)] else [])
        ++ (if orConditions.length > 0 then [("$or", JVal.arr orConditions)] else [])
      pure (JVal.obj query) : Except Unit JVal) with
    | .ok q => .ok q
    | .error _ => .error .invalidFilterFormat

/-! ### The sort decoder (`sortParamsDecoder`) -/

/-- Drop leading JSON whitespace. -/
def skipWs (cs : List Char) : List Char :=
  cs.dropWhile (fun c => c = ' ' ∨ c = '\t' ∨ c = '\n' ∨ c = '\r')

/-- Read one double-quoted string literal (no escape sequences, which the
sort grammar of signed field tokens never contains), returning the content
and the remaining input. -/
def readQuoted : List Char → Option (List Char × List Char)
  | '"' :: rest => go rest []
  | _ => none
where
  go : List Char → List Char → Option (List Char × List Char)
    | [], _ => none
    | '"' :: rest, acc => some (acc.reverse, rest)
    | c :: rest, acc => go rest (c :: acc)

/-- Fuel-driven reader for the items of a JSON array of strings, positioned
after the opening bracket (or after a comma). -/
def readItems : ℕ → List Char → Option (List String)
  | 0, _ => none
  | n + 1, cs =>
    match readQuoted (skipWs cs) with
    | none => none
    | some (item, rest) =>
      match skipWs rest with
      | ']' :: tail => if skipWs tail = [] then some [String.mk item] else none
      | ',' :: tail => (readItems n tail).map (String.mk item :: ·)
      | _ => none

/-- The fragment of `JSON.parse` exercised by the sort decoder: parse the
(already quote-normalized) input as a JSON array of strings.  Inputs that are
valid JSON but not an array of strings make the decoder's `forEach` callback
throw, so collapsing them into a parse failure reaches the same `catch`. -/
def parseStringArray (s : String) : Option (List String) :=
  match skipWs s.data with
  | '[' :: rest =>
    match skipWs rest with
    | ']' :: tail => if skipWs tail = [] then some [] else none
    | _ => readItems rest.length.succ rest
  | _ => none

/-- The string with every single quote replaced by a double quote
(`sort.replace(/'/g, '"')`). -/
def replaceQuotes (s : String) : String :=
  String.mk (s.data.map (fun c => if c = '\'' then '"' else c))

/-- Record a sort direction for a field, JavaScript-object style: an existing
key keeps its position and gets the new value, a new key is appended. -/
def sortUpsert (acc : List (String × ℤ)) (k : String) (v : ℤ) :
    List (String × ℤ) :=
  if acc.any (fun kv => kv.1 == k) then
    acc.map (fun kv => if kv.1 == k then (k, v) else kv)
  else acc ++ [(k, v)]

/-- The decoder `sortParamsDecoder`: empty / absent input decodes to
`undefined`; an input starting with `[` is parsed as a quote-normalized JSON
array of tokens (parse failure throws `{status: 400, message: 'Bad Sort Format'}`),
any other input is the single token; each token `item` contributes direction
`1` if it starts with `+` and `-1` otherwise, under the field name
`item.substring(1)` (the first character is unconditionally removed). -/
def sortParamsDecoder (sort : Option String) :
    Except RepoError (Option (List (String × ℤ))) := do
  match sort with
  | none => pure none
  | some s =>
    if s.data = [] then pure none
    else do
      let decoded ←
        if s.data.head? = some '[' then
          match parseStringArray (replaceQuotes s) with
          | some items => pure items
          | none => throw RepoError.badSortFormat
        else pure [s]
      let sortFormat := decoded.foldl (fun acc item =>
        sortUpsert acc (String.mk item.data.tail)
          (if item.data.head? = some '+' then 1 else -1)) []
      pure (some sortFormat)

/-! ### Pagination arithmetic (`queryToPagination`, `resultToPagination`)

Rational arithmetic is written through `mkRat` / `Rat.divInt` so that every
operation evaluates by kernel reduction (the library's `Rat` operations are
irreducible); the lemmas `qAdd_eq` … `ratCeil_eq` identify these with the
standard operations. -/

/-- Kernel-reducible rational addition. -/
def qAdd (a b : ℚ) : ℚ := mkRat (a.num * b.den + b.num * a.den) (a.den * b.den)

/-- Kernel-reducible rational subtraction. -/
def qSub (a b : ℚ) : ℚ := mkRat (a.num * b.den - b.num * a.den) (a.den * b.den)

/-- Kernel-reducible rational multiplication. -/
def qMul (a b : ℚ) : ℚ := mkRat (a.num * b.num) (a.den * b.den)

/-- Kernel-reducible rational division (zero when the divisor is zero). -/
def qDiv (a b : ℚ) : ℚ := Rat.divInt (a.num * b.den) ((a.den : ℤ) * b.num)

/-- Kernel-reducible ceiling. -/
def ratCeil (q : ℚ) : ℤ := Int.ediv (q.num + q.den - 1) q.den

inductive JsNum where
  | fin (q : ℚ)
  | nan
  | posInf
  | negInf
deriving DecidableEq

/-- Truthiness of a JavaScript number (`0` and `NaN` are falsy). -/
def JsNum.truthy : JsNum → Bool
  | .fin q => q != 0
  | .nan => false
  | _ => true

/-- The expression `x || y` on numbers. -/
def JsNum.orElse (x y : JsNum) : JsNum := if x.truthy then x else y

/-- Subtraction of a constant. -/
def JsNum.subC (x : JsNum) (c : ℚ) : JsNum :=
  match x with
  | .fin q => .fin (qSub q c)
  | x => x

/-- Addition of a constant. -/
def JsNum.addC (x : JsNum) (c : ℚ) : JsNum :=
  match x with
  | .fin q => .fin (qAdd q c)
  | x => x

/-- JavaScript multiplication (as used on parsed page/length values). -/
def JsNum.mul : JsNum → JsNum → JsNum
  | .fin a, .fin b => .fin (qMul a b)
  | .nan, _ | _, .nan => .nan
  | .posInf, .fin b | .fin b, .posInf =>
    if b.num = 0 then .nan else if 0 < b.num then .posInf else .negInf
  | .negInf, .fin b | .fin b, .negInf =>
    if b.num = 0 then .nan else if 0 < b.num then .negInf else .posInf
  | .posInf, .posInf | .negInf, .negInf => .posInf
  | .posInf, .negInf | .negInf, .posInf => .negInf

/-- JavaScript division (as used for `skip / limit` and
`totalItems / pageSize`). -/
def JsNum.div : JsNum → JsNum → JsNum
  | .fin a, .fin b =>
    if b.num = 0 then
      (if a.num = 0 then .nan else if 0 < a.num then .posInf else .negInf)
    else .fin (qDiv a b)
  | .nan, _ | _, .nan => .nan
  | .posInf, .fin b => if 0 ≤ b.num then .posInf else .negInf
  | .negInf, .fin b => if 0 ≤ b.num then .negInf else .posInf
  | .fin _, .posInf | .fin _, .negInf => .fin 0
  | _, _ => .nan

/-- `Math.ceil`. -/
def JsNum.ceil : JsNum → JsNum
  | .fin q => .fin (ratCeil q)
  | x => x

/-- The result of `parseInt(s)`: skip leading whitespace, read an optional
sign and the longest decimal-digit run; no digits means `NaN`. -/
def parseIntJS (s : String) : JsNum :=
  let cs := s.data.dropWhile Char.isWhitespace
  let signed : ℤ × List Char :=
    match cs with
    | '-' :: rest => (-1, rest)
    | '+' :: rest => (1, rest)
    | _ => (1, cs)
  let digits := signed.2.takeWhile Char.isDigit
  if digits = [] then .nan
  else .fin (mkRat
    (signed.1 * (digits.foldl (fun a c => a * 10 + (c.toNat - '0'.toNat)) 0 : ℕ)) 1)

/-- The `request` part of `PaginationData`. -/
structure PagRequest where
  skip : JsNum
  limit : JsNum
deriving DecidableEq

/-- The computed `pagination` record. -/
structure PagResult where
  totalItems : ℚ
  totalPages : JsNum
  currentPage : JsNum
  pageSize : JsNum
deriving DecidableEq

/-- `queryToPagination`: parse `page` and `length` as integers and compute
`skip = (page - 1) * length`, `limit = length` (in JavaScript float
arithmetic, so malformed strings propagate `NaN`). -/
def queryToPagination (page length : String) : PagRequest :=
  let p := parseIntJS page
  let pageSize := parseIntJS length
  { skip := (p.subC 1).mul pageSize, limit := pageSize }

/-- `resultToPagination`: `currentPage = skip / limit + 1 || 1`,
`pageSize = limit || 10`, `totalPages = Math.ceil(totalItems / pageSize)`. -/
def resultToPagination (totalItems : ℚ) (request : PagRequest) : PagResult :=
  let currentPage := ((request.skip.div request.limit).addC 1).orElse (.fin 1)
  let pageSize := request.limit.orElse (.fin 10)
  { totalItems := totalItems
    totalPages := ((JsNum.fin totalItems).div pageSize).ceil
    currentPage := currentPage
    pageSize := pageSize }

/-! ### The allow-list check (`getNonFilterableFields`) -/

/-- Keys of a value as enumerated by `Object.keys` (with the corresponding
values): an object's own entries, an array's / string's indices; other
primitives have none, and `Object.keys(null)` throws. -/
def jsObjectEntries (v : JVal) : Except Unit (List (String × JVal)) :=
  match v with
  | .null | .undefined => .error ()
  | v => .ok (jsForInEntries v)

mutual

/-- The recursive `checkFields` helper: every key of the filter that is not a
logical connective is collected when absent from the allow-list; the elements
under a `$or` / `$and` key are each checked recursively (the code calls
`.forEach` on that value, which throws when it is not an array).
`Object.keys` throws on `null`/`undefined`; an array or string enumerates
index keys, which are never `$or`/`$and`, so only their allow-list membership
is checked. -/
def checkFields (fields : List String) : JVal → Except Unit (List String)
  | .null | .undefined => .error ()
  | .obj kvs => checkEntryList fields kvs
  | v => .ok ((jsForInEntries v).filterMap (fun kv =>
      if fields.contains kv.1 then none else some kv.1))

def checkEntryList (fields : List String) :
    List (String × JVal) → Except Unit (List String)
  | [] => .ok []
  | (k, v) :: rest => do
    let here ←
      if k = "$or" ∨ k = "$and" then
        match v with
        | .arr subs => checkSubList fields subs
        | _ => .error ()
      else pure (if fields.contains k then [] else [k])
    let there ← checkEntryList fields rest
    pure (here ++ there)

def checkSubList (fields : List String) :
    List JVal → Except Unit (List String)
  | [] => .ok []
  | sub :: rest => do
    let here ← checkFields fields sub
    let there ← checkSubList fields rest
    pure (here ++ there)

end

/-- Comma-separated join (`Array.prototype.join(', ')`). -/
def joinComma : List String → String
  | [] => ""
  | [s] => s
  | s :: rest => s ++ ", " ++ joinComma rest

/-- Space-separated join (`Array.prototype.join(' ')`). -/
def joinSpace : List String → String
  | [] => ""
  | [s] => s
  | s :: rest => s ++ " " ++ joinSpace rest

/-- `getNonFilterableFields`: collect (in depth-first order) every referenced
field absent from the allow-list; when any were collected, throw a
`BadRequestException` whose message is singular for exactly one collected
occurrence and pluralized (joining all of them) otherwise; otherwise return
`null`. -/
def getNonFilterableFields (filters : JVal) (fields : List String) :
    Except RepoError (Option (List String)) := do
  let nonFilterableFields ←
    if jsTruthy filters then
      match checkFields fields filters with
      | .ok l => pure l
      | .error _ => throw RepoError.jsTypeError
    else pure []
  if nonFilterableFields.length > 0 then
    throw (RepoError.fieldNotFilterable
      (if nonFilterableFields.length = 1 then
        "Bad Format:Field is not Filterable: " ++ nonFilterableFields.headI
      else
        "Fields are not Filterable: " ++ joinComma nonFilterableFields))
  else pure none

/-! ### Denotational model of the storage engine

A collection is a list of documents (`JVal.obj` values, in insertion order).
`find`-style querying filters the list; sorting is stable; the aggregation
stages `getAllData` emits are interpreted over the same lists.  External
engine behaviors are modelled uniformly for the query and aggregation
entry points: both `.limit(n)`/`$limit` truncate, both `.skip(n)`/`$skip`
drop, an absent sort specification and an empty `$sort` document both leave
the order unchanged, and `$regex` matching with the generated
metacharacter-free patterns is case-insensitive substring search. -/

/-- Cross-type rank used to order values of different kinds (after the BSON
type bracketing); a missing field sorts together with `null`. -/
def jvalRank : Option JVal → ℕ
  | none | some .undefined | some .null => 1
  | some (.num _) => 2
  | some (.str _) => 3
  | some (.obj _) => 4
  | some (.arr _) => 5
  | some (.oid _) => 7
  | some (.bool _) => 8
  | some (.date _) => 9
  | some (.regexp _ _) => 11

/-- Total comparison of two (possibly missing) field values: by rank, then
within the comparable kinds; compound values of equal rank are treated as
equal (ties are resolved by sort stability). -/
def cmpJVal (a b : Option JVal) : Ordering :=
  match compare (jvalRank a) (jvalRank b) with
  | .lt => .lt
  | .gt => .gt
  | .eq =>
    match a, b with
    | some (.num x), some (.num y) => compare x y
    | some (.str x), some (.str y) => compare x y
    | some (.oid x), some (.oid y) => compare x y
    | some (.bool x), some (.bool y) => compare x y
    | some (.date x), some (.date y) => compare x y
    | _, _ => .eq

/-- Document comparator induced by a sort specification: compare by each
listed field in order, descending fields reversed, first difference wins. -/
def cmpBySpec : List (String × ℤ) → JVal → JVal → Ordering
  | [], _, _ => .eq
  | (k, dir) :: rest, a, b =>
    let c := cmpJVal (objGet a k) (objGet b k)
    let c := if dir < 0 then c.swap else c
    match c with
    | .eq => cmpBySpec rest a b
    | c => c

/-- Insert into a sorted list, placing the new element before the first
strictly greater one (so equal elements keep their original relative
order under `sortDocs`). -/
def insertSorted (cmp : JVal → JVal → Ordering) (x : JVal) :
    List JVal → List JVal
  | [] => [x]
  | y :: ys =>
    if cmp x y = .gt then y :: insertSorted cmp x ys else x :: y :: ys

/-- Stable sort of a document list by a comparator. -/
def sortDocs (cmp : JVal → JVal → Ordering) (l : List JVal) : List JVal :=
  l.foldr (insertSorted cmp) []

/-- Case-insensitive substring containment on character lists. -/
def containsCI (hay needle : List Char) : Bool :=
  let needle := needle.map Char.toLower
  let rec go : List Char → Bool
    | [] => needle.isPrefixOf []
    | c :: cs => needle.isPrefixOf ((c :: cs).map Char.toLower) || go cs
  go hay

/-- Equality matching of a query value against a (possibly missing) field
value: deep equality, `null` also matches a missing field, and an
array-valued field matches when it contains the query value. -/
def eqMatches (fv : Option JVal) (v : JVal) : Bool :=
  match fv with
  | none => (match v with | .null => true | _ => false)
  | some x => jbeq x v || (match x with | .arr xs => xs.any (fun e => jbeq e v) | _ => false)

/-- Matching of a single comparison/regex operator.  The generated queries
contain only the operators listed; `$options` is a modifier of `$regex`. -/
def opMatches (fv : Option JVal) (k : String) (v : JVal) : Bool :=
  match k with
  | "$gt" => jvalRank fv = jvalRank (some v) && cmpJVal fv (some v) = .gt
  | "$gte" => jvalRank fv = jvalRank (some v) &&
      (cmpJVal fv (some v) = .gt || eqMatches fv v)
  | "$lt" => jvalRank fv = jvalRank (some v) && cmpJVal fv (some v) = .lt
  | "$lte" => jvalRank fv = jvalRank (some v) &&
      (cmpJVal fv (some v) = .lt || eqMatches fv v)
  | "$ne" => !eqMatches fv v
  | "$in" => match v with | .arr xs => xs.any (eqMatches fv) | _ => false
  | "$regex" =>
    (match fv, v with
     | some (.str s), .str p => containsCI s.data p.data
     | some (.str s), .regexp (.str p) _ => containsCI s.data p.data
     | _, _ => false)
  | _ => true

/-- Is the specification object an operator document (its first key starts
with `$`)? -/
def isOpSpec (kvs : List (String × JVal)) : Bool :=
  match kvs.head? with
  | some kv => kv.1.data.head? = some '$'
  | none => false

/-- Matching of one field specification against a field value: an operator
document applies all its operators, anything else is an equality match. -/
def fieldMatches (fv : Option JVal) (spec : JVal) : Bool :=
  match spec with
  | .obj kvs =>
    if isOpSpec kvs then kvs.all (fun kv => opMatches fv kv.1 kv.2)
    else eqMatches fv spec
  | _ => eqMatches fv spec

mutual

/-- Does a document satisfy a query document?  All entries must hold;
`$and` / `$or` combine sub-queries, any other key constrains that field. -/
def docMatches (doc : JVal) (query : JVal) : Bool :=
  match query with
  | .obj kvs => entriesMatch doc kvs
  | _ => true

def entriesMatch (doc : JVal) : List (String × JVal) → Bool
  | [] => true
  | (k, spec) :: rest =>
    (if k = "$and" then andSpecMatch doc spec
     else if k = "$or" then orSpecMatch doc spec
     else fieldMatches (objGet doc k) spec) && entriesMatch doc rest

def andSpecMatch (doc : JVal) : JVal → Bool
  | .arr qs => allMatch doc qs
  | _ => true

def orSpecMatch (doc : JVal) : JVal → Bool
  | .arr qs => anyMatch doc qs
  | _ => true

def allMatch (doc : JVal) : List JVal → Bool
  | [] => true
  | q :: qs => docMatches doc q && allMatch doc qs

def anyMatch (doc : JVal) : List JVal → Bool
  | [] => false
  | q :: qs => docMatches doc q || anyMatch doc qs

end

/-- Number of documents `$skip n` / `.skip(n)` passes over. -/
def skipApply (n : JsNum) (docs : List JVal) : List JVal :=
  match n with
  | .fin q => docs.drop (Int.toNat ⌊q⌋)
  | .nan => docs
  | .posInf => []
  | .negInf => docs

/-- Truncation applied by `$limit n` / `.limit(n)` (modelled uniformly for
both entry points). -/
def limitApply (n : JsNum) (docs : List JVal) : List JVal :=
  match n with
  | .fin q => docs.take (Int.toNat ⌊q⌋)
  | .nan => docs
  | .posInf => docs
  | .negInf => []

/-- Keep only the listed keys of a document (plus `_id` unless excluded by
`omitId`); non-objects pass through. -/
def keepKeys (ks : List String) (omitId : Bool) (v : JVal) : JVal :=
  match v with
  | .obj kvs => .obj (kvs.filter (fun kv =>
      ks.contains kv.1 || (kv.1 = "_id" && !omitId)))
  | v => v

/-- Apply a `{field: 0|1}` projection document: with no non-zero entry it is
an exclusion projection, otherwise an inclusion projection keeping the listed
fields and `_id` (unless `_id: 0`).  Mixed projections are rejected by the
driver and never generated by this code. -/
def projectDoc (spec : List (String × ℚ)) (doc : JVal) : JVal :=
  let inclusionKeys := (spec.filter (fun kv => kv.2 ≠ 0)).map (·.1)
  if inclusionKeys.isEmpty then
    removeKeys ((spec.filter (fun kv => kv.2 = 0)).map (·.1)) doc
  else keepKeys inclusionKeys (spec.contains ("_id", 0)) doc

/-- A projection argument as accepted by the repository's read operations:
a mongoose select string or a `{field: 0|1}` document. -/
inductive Projection where
  | strSpec (s : String)
  | objSpec (kvs : List (String × ℚ))

/-- Apply a projection argument to one document.  A select string is split
into whitespace-separated tokens; if every token carries a `-` the named
fields are excluded, otherwise the unprefixed tokens are included. -/
def applySelect (p : Projection) (doc : JVal) : JVal :=
  match p with
  | .objSpec kvs => projectDoc kvs doc
  | .strSpec s =>
    let tokens := (splitOnChar ' ' s.data).filter (· ≠ [])
    if tokens.all (fun t => t.head? = some '-') then
      removeKeys (tokens.map (fun t => String.mk t.tail)) doc
    else keepKeys ((tokens.filter (fun t => t.head? ≠ some '-')).map String.mk)
      false doc

/-- Aggregation pipeline stages generated by `getAllData` (plus the
caller-supplied stages threaded through `aggregationPipeline` /
`projectStage`). -/
inductive Stage where
  | matchQ (query : JVal)
  | sortS (spec : List (String × ℤ))
  | skipS (n : JsNum)
  | limitS (n : JsNum)
  | unsetS (fields : List String)
  | countS (field : String)
  | facetS (branches : List (String × List Stage))
  | projectS (spec : List (String × ℚ))

mutual

/-- Run an aggregation pipeline over a document list. -/
def runPipeline : List Stage → List JVal → List JVal
  | [], docs => docs
  | s :: rest, docs => runPipeline rest (runStage s docs)

def runStage : Stage → List JVal → List JVal
  | .matchQ q, docs => docs.filter (fun d => docMatches d q)
  | .sortS spec, docs => sortDocs (cmpBySpec spec) docs
  | .skipS n, docs => skipApply n docs
  | .limitS n, docs => limitApply n docs
  | .unsetS fields, docs => docs.map (removeKeys fields)
  | .countS field, docs =>
    if docs.length = 0 then [] else [.obj [(field, .num docs.length)]]
  | .facetS branches, docs => [.obj (runBranches branches docs)]
  | .projectS spec, docs => docs.map (projectDoc spec)

def runBranches : List (String × List Stage) → List JVal →
    List (String × JVal)
  | [], _ => []
  | (name, stages) :: rest, docs =>
    (name, .arr (runPipeline stages docs)) :: runBranches rest docs

end

/-! ### The generic repository

The repository file appears twice in the repository sources in two slightly
different variants; they are embedded as `RepoA` (the variant that also
carries `findById`, `getBusinessUser`, `findPassword`, `findLastOne`) and
`RepoB` (the shorter variant whose `findAll` applies no projection at all and
whose `findOne` ignores its projection argument).  `getAllData` and the
write operations are textually identical in both variants and are embedded
once, as `Repo.getAllData` etc. -/

/-- The spread `{...data, isDeleted: false}` used by the read filters and by
the update payloads. -/
def withIsDeleted (data : List (String × JVal)) (flag : Bool) :
    List (String × JVal) :=
  upsertKV data "isDeleted" (.bool flag)

/-- Apply an update payload (`$set` semantics of a plain update document) to
one document. -/
def setFields (doc : JVal) (kvs : List (String × JVal)) : JVal :=
  match doc with
  | .obj dkvs => .obj (kvs.foldl (fun acc kv => upsertKV acc kv.1 kv.2) dkvs)
  | v => v

/-- `findByIdAndUpdate(id, mod, {new: true})`: rewrite the first document
whose `_id` equals `id` with the update payload and return the updated
document together with the new collection state. -/
def findByIdAndUpdate (st : List JVal) (id : JVal)
    (mod : List (String × JVal)) : Option JVal × List JVal :=
  match st with
  | [] => (none, [])
  | d :: rest =>
    if docMatches d (.obj [("_id", id)]) then
      let d' := setFields d mod
      (some d', d' :: rest)
    else
      let r := findByIdAndUpdate rest id mod
      (r.1, d :: r.2)

namespace RepoA

/-- Variant A `findAll`: filter by `{...data, isDeleted: false}` and project
with the given projection, defaulting to `'-password'`. -/
def findAll (st : List JVal) (data : List (String × JVal))
    (projection : Option Projection) : List JVal :=
  (st.filter (fun d => docMatches d (.obj (withIsDeleted data false)))).map
    (applySelect (projection.getD (.strSpec "-password")))

/-- The select document `{password: 0, ...projection}` used by `find` in
both variants: the default exclusion is spread first, so entries of a
supplied projection override it key-by-key in place and new keys are
appended in order, as JavaScript object spread does. -/
def mergedSel (projection : Option (List (String × ℚ))) :
    List (String × ℚ) :=
  match projection with
  | some p => p.foldl (fun acc kv =>
      if acc.any (fun kv' => kv'.1 == kv.1) then
        acc.map (fun kv' => if kv'.1 == kv.1 then kv else kv')
      else acc ++ [kv]) [("password", 0)]
  | none => [("password", 0)]

/-- Variant A (and B) `find`: filter by `{...filter, isDeleted: false}` and
project with `{password: 0, ...projection}`. -/
def find (st : List JVal) (filter : List (String × JVal))
    (projection : Option (List (String × ℚ))) : List JVal :=
  (st.filter (fun d => docMatches d (.obj (withIsDeleted filter false)))).map
    (projectDoc (mergedSel projection))

/-- Variant A `findById`: a point lookup on `_id` only — no soft-delete
filter and no projection. -/
def findById (st : List JVal) (id : JVal) : Option JVal :=
  (st.filter (fun d => docMatches d (.obj [("_id", id)]))).head?

/-- Variant A `findOne`: first document matching
`{...data, isDeleted: false}`, with the supplied projection, defaulting to
`'-password'`. -/
def findOne (st : List JVal) (data : List (String × JVal))
    (projection : Option Projection) : Option JVal :=
  ((st.filter (fun d => docMatches d (.obj (withIsDeleted data false)))).head?).map
    (applySelect (projection.getD (.strSpec "-password")))

end RepoA

namespace RepoB

/-- Variant B `findAll`: filter by `{...data, isDeleted: false}`; no
`select` call is made, so documents are returned with all their fields
(the `projection` argument is accepted but unused). -/
def findAll (st : List JVal) (data : List (String × JVal))
    (_projection : Option Projection) : List JVal :=
  st.filter (fun d => docMatches d (.obj (withIsDeleted data false)))

/-- Variant B `find` coincides with variant A `find`. -/
def find (st : List JVal) (filter : List (String × JVal))
    (projection : Option (List (String × ℚ))) : List JVal :=
  RepoA.find st filter projection

/-- Variant B `findOne`: first document matching
`{...data, isDeleted: false}`; the projection argument is never applied. -/
def findOne (st : List JVal) (data : List (String × JVal))
    (_projection : Option Projection) : Option JVal :=
  (st.filter (fun d => docMatches d (.obj (withIsDeleted data false)))).head?

end RepoB

namespace Repo

/-- `update(id, data)` (identical in both variants):
`findByIdAndUpdate(id, {...data, isDeleted: false}, {new: true})`. -/
def update (st : List JVal) (id : JVal) (data : List (String × JVal)) :
    Option JVal × List JVal :=
  findByIdAndUpdate st id (withIsDeleted data false)

/-- `delete(id)` (identical in both variants): soft delete via
`findByIdAndUpdate(id, {isDeleted: true}, {new: true})`. -/
def deleteById (st : List JVal) (id : JVal) : Option JVal × List JVal :=
  findByIdAndUpdate st id [("isDeleted", .bool true)]

/-- The parameters of `getAllData` that shape its result.  The pass-through
execution hints (`session`, `allowDiskUse`, `maxTimeMS`, `readPreference`,
`readConcern`, `hint`, `collation`) and `useLean` select engine behaviors
without changing which documents are returned, and carry no content in the
document model. -/
structure GetAllParams where
  filter : RawFilter
  sortStr : Option String := none
  page : String
  length : String
  filterableFields : List String := []
  aggregationPipeline : List Stage := []
  projectStage : Option Stage := none
  useAggregation : Bool := false
  excludeFields : List String := []

/-- Spread a query object with one extra binding
(`{...filters, isDeleted: {$ne: true}}`); the decoder always produces an
object. -/
def spreadWith (v : JVal) (k : String) (val : JVal) : JVal :=
  match v with
  | .obj kvs => .obj (upsertKV kvs k val)
  | _ => .obj [(k, val)]

/-- Extraction `result[0]?.data || []` from the facet output. -/
def facetData (result : List JVal) : List JVal :=
  match result.head? with
  | some r =>
    (match objGet r "data" with
     | some (.arr l) => l
     | _ => [])
  | none => []

/-- Extraction `result[0]?.totalCount[0]?.count || 0` from the facet
output. -/
def facetCount (result : List JVal) : ℚ :=
  match result.head? with
  | none => 0
  | some r =>
    match objGet r "totalCount" with
    | some (.arr l) =>
      (match l.head? with
       | some c =>
         (match objGet c "count" with
          | some (.num n) => if n ≠ 0 then n else 0
          | _ => 0)
       | none => 0)
    | _ => 0

/-- The listing operation `getAllData` (identical in both repository
variants): decode the filter, sort and pagination parameters, enforce the
allow-list, compose the base predicate `{...filters, isDeleted: {$ne: true}}`,
then execute either the aggregation pipeline (caller stages, `$match`, one
`$facet` with a sorted/paged/unset `data` branch and a `$count` branch) or
the equivalent find with a separate count of the same predicate. -/
def getAllData (st : List JVal) (params : GetAllParams) :
    Except RepoError (List JVal × PagResult) := do
  let DEFAULT_EXCLUDE_FIELDS := ["isDeleted", "__v"]
  let filters ← filterParamsDecoder params.filter
  let sort ← sortParamsDecoder (some (params.sortStr.getD "-createdAt"))
  let paginationParams := queryToPagination params.page params.length
  let skip := paginationParams.skip
  let limit := paginationParams.limit
  let _ ← getNonFilterableFields filters params.filterableFields
  let mergedExcludeFields :=
    (DEFAULT_EXCLUDE_FIELDS ++ params.excludeFields).eraseDups
  let baseFilter := spreadWith filters "isDeleted" (.obj [("$ne", .bool true)])
  if params.useAggregation then
    let unsetStage := Stage.unsetS mergedExcludeFields
    let dataStages :=
      [Stage.sortS (sort.getD []), Stage.skipS skip, Stage.limitS limit]
      ++ (match params.projectStage with | some ps => [ps] | none => [])
      ++ [unsetStage]
    let facetStage :=
      Stage.facetS [("data", dataStages), ("totalCount", [Stage.countS "count"])]
    let pipeline := params.aggregationPipeline ++ [Stage.matchQ baseFilter, facetStage]
    let result := runPipeline pipeline st
    let data := facetData result
    let totalCount := facetCount result
    let paginationResult := resultToPagination totalCount paginationParams
    pure (data, paginationResult)
  else
    let matched := st.filter (fun d => docMatches d baseFilter)
    let sorted := match sort with
      | some spec => sortDocs (cmpBySpec spec) matched
      | none => matched
    let selectStr := joinSpace (mergedExcludeFields.map (fun f => "-" ++ f))
    let data := (limitApply limit (skipApply skip sorted)).map
      (applySelect (.strSpec selectStr))
    let totalCount := (st.filter (fun d => docMatches d baseFilter)).length
    let paginationResult := resultToPagination totalCount paginationParams
    pure (data, paginationResult)

end Repo

/-! ### The exception classifier (`AllExceptionsFilter.formatException`)

A caught value is modelled by `Caught`: `undefined`, `null`, thrown
primitives, a NestJS `HttpException` (with the status and response message
its methods expose), or an arbitrary object described by the properties the
classifier inspects (`ExcShape`).  `instanceof` tests are modelled by the
list of class names on the value's prototype chain; a NestJS
`HttpException` is represented only by the dedicated constructor. -/

/-- One sub-error of a mongoose `ValidationError` (`exception.errors`
values), carrying the properties the validation-message builder reads.
Numeric limit properties are carried in the string form their template
interpolation produces. -/
structure SubError where
  kind : Option String := none
  path : Option String := none
  message : Option String := none
  propEnumValues : Option (List String) := none
  propMinlength : Option String := none
  propMaxlength : Option String := none
  propMin : Option String := none
  propMax : Option String := none

/-- Properties of a thrown object value, as the classifier reads them. -/
structure ExcShape where
  classes : List String := []
  ctorName : String := "Object"
  name : Option String := none
  message : Option String := none
  code : Option JVal := none
  status : Option ℚ := none
  keyValue : Option (List (String × JVal)) := none
  isAxiosErrorFlag : Option JVal := none
  hasConfig : Bool := false
  hasRequest : Bool := false
  responseDefined : Bool := false
  responseStatus : Option ℚ := none
  responseDataMessage : Option String := none
  details : Option JVal := none
  errors : List SubError := []
  path : Option String := none
  value : Option JVal := none
  kind : Option String := none

/-- A caught value reaching `formatException`. -/
inductive Caught where
  | undefVal
  | nullVal
  | strVal (s : String)
  | numVal (q : ℚ)
  | httpExc (status : ℚ) (respMessage : String) (ctorName : String)
  | objVal (e : ExcShape)

/-- Optional-chained property reads used by the predicates. -/
def Caught.nameProp : Caught → Option String
  | .objVal e => e.name
  | _ => none

def Caught.messageProp : Caught → Option String
  | .objVal e => e.message
  | _ => none

def Caught.codeProp : Caught → Option JVal
  | .objVal e => e.code
  | _ => none

def Caught.statusProp : Caught → Option ℚ
  | .objVal e => e.status
  | _ => none

/-- The value of `exception?.constructor?.name`. -/
def Caught.ctorNameProp : Caught → Option String
  | .objVal e => some e.ctorName
  | .strVal _ => some "String"
  | .numVal _ => some "Number"
  | .httpExc _ _ ctor => some ctor
  | _ => none

/-- The `instanceof` test against a class name. -/
def Caught.instOf (c : Caught) (cls : String) : Bool :=
  match c with
  | .objVal e => e.classes.contains cls
  | .httpExc _ _ ctor => cls = "HttpException" ∨ cls = ctor ∨ cls = "Error"
  | _ => false

/-- Case-sensitive substring containment (`String.prototype.includes`). -/
def containsSub (hay needle : List Char) : Bool :=
  let rec go : List Char → Bool
    | [] => needle.isPrefixOf []
    | c :: cs => needle.isPrefixOf (c :: cs) || go cs
  go hay

/-- Does `exception?.message` contain the given text (case-sensitive)? -/
def msgIncludes (c : Caught) (needle : String) : Bool :=
  match c.messageProp with
  | some m => containsSub m.data needle.data
  | none => false

/-- Does `exception?.message?.toLowerCase()` contain the given text? -/
def msgIncludesLower (c : Caught) (needle : String) : Bool :=
  match c.messageProp with
  | some m => containsSub (m.data.map Char.toLower) needle.data
  | none => false

/-- `isJWTError`. -/
def isJWTError (c : Caught) : Bool :=
  c.instOf "JsonWebTokenError" || c.instOf "TokenExpiredError" ||
  c.instOf "NotBeforeError" ||
  c.nameProp == some "JsonWebTokenError" ||
  c.nameProp == some "TokenExpiredError" ||
  c.nameProp == some "NotBeforeError"

/-- `isMongooseError`. -/
def isMongooseError (c : Caught) : Bool :=
  let standardMongooseErrors :=
    ["ValidationError", "CastError", "DocumentNotFoundError", "VersionError",
     "ParallelSaveError", "StrictModeError", "OverwriteModelError",
     "MissingSchemaError"]
  let connectionErrors :=
    ["DisconnectedError", "MongooseServerSelectionError",
     "MongoServerSelectionError", "MongoNetworkError", "MongoTimeoutError"]
  c.instOf "ValidationError" || c.instOf "CastError" ||
  c.instOf "DocumentNotFoundError" || c.instOf "VersionError" ||
  c.instOf "ParallelSaveError" || c.instOf "StrictModeError" ||
  c.instOf "OverwriteModelError" || c.instOf "MissingSchemaError" ||
  (match c.nameProp with
   | some n => standardMongooseErrors.contains n || connectionErrors.contains n
   | none => false) ||
  (match c.ctorNameProp with
   | some n => containsSub n.data "Mongoose".data
   | none => false) ||
  msgIncludes c "mongoose"

/-- `isMongoDuplicateKeyError`: a truthy object with `code === 11000` and a
`keyValue` property. -/
def isMongoDuplicateKeyError (c : Caught) : Bool :=
  match c with
  | .objVal e => e.code == some (.num 11000) && e.keyValue.isSome
  | _ => false

/-- `isMongoWriteConcernError`. -/
def isMongoWriteConcernError (c : Caught) : Bool :=
  c.nameProp == some "WriteConcernError" || c.codeProp == some (.num 64)

/-- `isMongoTimeoutError`. -/
def isMongoTimeoutError (c : Caught) : Bool :=
  c.nameProp == some "MongoTimeoutError" || c.codeProp == some (.num 50) ||
  msgIncludes c "timeout"

/-- `isMongoNetworkError`. -/
def isMongoNetworkError (c : Caught) : Bool :=
  c.nameProp == some "MongoNetworkError" ||
  c.nameProp == some "MongoNetworkTimeoutError" ||
  c.codeProp == some (.num 89)

/-- `isMongoAuthError`. -/
def isMongoAuthError (c : Caught) : Bool :=
  c.nameProp == some "MongoAuthenticationError" ||
  c.codeProp == some (.num 18) || c.codeProp == some (.num 13)

/-- `isMongoDBDriverError`. -/
def isMongoDBDriverError (c : Caught) : Bool :=
  isMongoDuplicateKeyError c || isMongoWriteConcernError c ||
  isMongoTimeoutError c || isMongoNetworkError c || isMongoAuthError c

/-- `isAxiosError`. -/
def isAxiosError (c : Caught) : Bool :=
  (match c with
   | .objVal e =>
     e.isAxiosErrorFlag == some (.bool true) ||
     (e.hasConfig && e.hasRequest && e.responseDefined)
   | _ => false) ||
  c.nameProp == some "AxiosError"

/-- `isValidationError` (class-validator style: a `details` array). -/
def isValidationError (c : Caught) : Bool :=
  c.nameProp == some "ValidationError" &&
  (match c with
   | .objVal e => (match e.details with | some (.arr _) => true | _ => false)
   | _ => false)

/-- `isFileSystemError`. -/
def isFileSystemError (c : Caught) : Bool :=
  match c.codeProp with
  | some cv => jsTruthy cv &&
      (cv == .str "ENOENT" || cv == .str "EACCES" || cv == .str "EMFILE" ||
       cv == .str "ENOTDIR")
  | none => false

/-- `isNetworkError`. -/
def isNetworkError (c : Caught) : Bool :=
  match c.codeProp with
  | some cv => jsTruthy cv &&
      (cv == .str "ECONNREFUSED" || cv == .str "ETIMEDOUT" ||
       cv == .str "ENOTFOUND" || cv == .str "ECONNRESET")
  | none => false

/-- `isPermissionError`. -/
def isPermissionError (c : Caught) : Bool :=
  msgIncludesLower c "permission" || c.codeProp == some (.str "EPERM")

/-- `isRateLimitError`. -/
def isRateLimitError (c : Caught) : Bool :=
  msgIncludesLower c "rate limit" || c.statusProp == some 429

/-- The `exception instanceof Error` test of the last chain link. -/
def isErrorInstance (c : Caught) : Bool :=
  c.instOf "Error"

/-- The `exception instanceof HttpException` test of the first chain
link. -/
def isHttpException (c : Caught) : Bool :=
  c.instOf "HttpException"

/-- A normalized message: a single string or an ordered list of strings. -/
inductive Msg where
  | one (s : String)
  | many (l : List String)
deriving DecidableEq

/-- Which piece of the caught value a handler attaches as development-mode
`details`. -/
inductive Details where
  | wholeException
  | validationErrors
  | messageText
  | keyValues
  | stackTrace
deriving DecidableEq

/-- The record `formatException` produces. -/
structure ErrorInfo where
  status : ℚ
  message : Msg
  type : String
  code : Option String
  details : Option Details

/-- Decimal display of the (always integral here) numbers interpolated into
messages and codes. -/
def showQ (q : ℚ) : String :=
  if q.den = 1 then toString q.num else toString q

/-- Template-literal display of a JavaScript value (the cases interpolated
into classifier messages). -/
def displayJVal : JVal → String
  | .null => "null"
  | .undefined => "undefined"
  | .bool b => if b then "true" else "false"
  | .num q => showQ q
  | .str s => s
  | .oid s => s
  | .date _ => "[Date]"
  | .regexp _ _ => "[RegExp]"
  | .arr _ => ""
  | .obj _ => "[object Object]"

/-- `handleJWTError`. -/
def handleJWTError (c : Caught) : ErrorInfo :=
  if c.instOf "TokenExpiredError" || c.nameProp == some "TokenExpiredError" then
    { status := 401, message := .one "Token has expired",
      type := "TokenExpiredError", code := some "TOKEN_EXPIRED", details := none }
  else if c.instOf "NotBeforeError" || c.nameProp == some "NotBeforeError" then
    { status := 401, message := .one "Token not active yet",
      type := "TokenNotActiveError", code := some "TOKEN_NOT_ACTIVE", details := none }
  else
    { status := 401, message := .one "Invalid token",
      type := "InvalidTokenError", code := some "INVALID_TOKEN", details := none }

/-- The per-kind sentence built for one mongoose validation sub-error. -/
def subErrorMessage (e : SubError) : String :=
  let path := e.path.getD "undefined"
  if e.kind == some "required" then path ++ " is required"
  else if e.kind == some "enum" then
    path ++ " must be one of: " ++ joinComma (e.propEnumValues.getD [])
  else if e.kind == some "minlength" then
    path ++ " must be at least " ++ e.propMinlength.getD "undefined" ++
      " characters long"
  else if e.kind == some "maxlength" then
    path ++ " must not exceed " ++ e.propMaxlength.getD "undefined" ++
      " characters"
  else if e.kind == some "min" then
    path ++ " must be at least " ++ e.propMin.getD "undefined"
  else if e.kind == some "max" then
    path ++ " must not exceed " ++ e.propMax.getD "undefined"
  else if e.kind == some "unique" then path ++ " must be unique"
  else
    match e.message with
    | some m => if m ≠ "" then m else "Validation failed for " ++ path
    | none => "Validation failed for " ++ path

/-- `handleMongooseError`. -/
def handleMongooseError (devMode : Bool) (c : Caught) : ErrorInfo :=
  if c.instOf "ValidationError" || c.nameProp == some "ValidationError" then
    let messages := (match c with | .objVal e => e.errors | _ => []).map subErrorMessage
    { status := 400
      message := if messages.length > 0 then .many messages else .many ["Validation failed"]
      type := "ValidationError", code := some "VALIDATION_ERROR"
      details := if devMode then some .validationErrors else none }
  else if c.instOf "CastError" || c.nameProp == some "CastError" then
    let field := (match c with | .objVal e => e.path | _ => none).getD "undefined"
    let value := (match c with | .objVal e => e.value | _ => none).getD .undefined
    if (match c with | .objVal e => e.kind | _ => none) == some "ObjectId" then
      { status := 400, message := .one ("Invalid " ++ field ++ " format")
        type := "CastError", code := some "INVALID_OBJECT_ID", details := none }
    else
      { status := 400
        message := .one ("Invalid " ++ field ++ ": " ++ displayJVal value)
        type := "CastError", code := some "INVALID_FORMAT", details := none }
  else if c.instOf "DocumentNotFoundError" ||
      c.nameProp == some "DocumentNotFoundError" then
    { status := 404, message := .one "Document not found",
      type := "DocumentNotFoundError", code := some "DOCUMENT_NOT_FOUND", details := none }
  else if c.instOf "VersionError" || c.nameProp == some "VersionError" then
    { status := 409, message := .one "Document was modified by another process",
      type := "VersionError", code := some "DOCUMENT_VERSION_CONFLICT", details := none }
  else if c.instOf "ParallelSaveError" || c.nameProp == some "ParallelSaveError" then
    { status := 409, message := .one "Cannot save document multiple times in parallel",
      type := "ParallelSaveError", code := some "PARALLEL_SAVE_ERROR", details := none }
  else if c.instOf "StrictModeError" || c.nameProp == some "StrictModeError" then
    let path := (match c with | .objVal e => e.path | _ => none).getD "undefined"
    { status := 400
      message := .one ("Field '" ++ path ++ "' is not defined in schema")
      type := "StrictModeError", code := some "FIELD_NOT_IN_SCHEMA", details := none }
  else if c.nameProp == some "DisconnectedError" then
    { status := 503, message := .one "Database connection lost",
      type := "DisconnectedError", code := some "DATABASE_DISCONNECTED", details := none }
  else if c.nameProp == some "MongooseServerSelectionError" ||
      c.nameProp == some "MongoServerSelectionError" then
    { status := 503, message := .one "Cannot connect to database server",
      type := "ServerSelectionError", code := some "DATABASE_CONNECTION_FAILED", details := none }
  else
    { status := 500, message := .one "Database operation failed",
      type := "MongooseError", code := some "DATABASE_ERROR"
      details := if devMode then some .messageText else none }

/-- `handleMongoDBDriverError`. -/
def handleMongoDBDriverError (devMode : Bool) (c : Caught) : ErrorInfo :=
  if isMongoDuplicateKeyError c then
    let keyValue := (match c with | .objVal e => e.keyValue | _ => none).getD []
    if keyValue.length = 1 then
      let field := (keyValue.headI).1
      let value := (keyValue.headI).2
      { status := 409
        message := .one ("The " ++ field ++ " \x22" ++ displayJVal value ++
          "\x22 is already in use")
        type := "DuplicateKeyError", code := some "DUPLICATE_KEY", details := none }
    else
      { status := 409, message := .one "Duplicate entry found",
        type := "DuplicateKeyError", code := some "DUPLICATE_KEY"
        details := if devMode then some .keyValues else none }
  else if isMongoWriteConcernError c then
    { status := 500, message := .one "Write operation failed due to write concern",
      type := "WriteConcernError", code := some "WRITE_CONCERN_ERROR", details := none }
  else if isMongoTimeoutError c then
    { status := 408, message := .one "Database operation timed out",
      type := "TimeoutError", code := some "DATABASE_TIMEOUT", details := none }
  else if isMongoNetworkError c then
    { status := 503, message := .one "Database network error",
      type := "NetworkError", code := some "DATABASE_NETWORK_ERROR", details := none }
  else if isMongoAuthError c then
    { status := 500, message := .one "Database authentication failed",
      type := "AuthenticationError", code := some "DATABASE_AUTH_ERROR", details := none }
  else
    { status := 500, message := .one "MongoDB driver error",
      type := "MongoDriverError", code := some "MONGO_DRIVER_ERROR", details := none }

/-- `handleAxiosError`. -/
def handleAxiosError (c : Caught) : ErrorInfo :=
  let status :=
    match (match c with | .objVal e => e.responseStatus | _ => none) with
    | some s => if s ≠ 0 then s else 502
    | none => 502
  let message :=
    match (match c with | .objVal e => e.responseDataMessage | _ => none) with
    | some m => if m ≠ "" then m else
        (match c.messageProp with
         | some em => if em ≠ "" then em else "External service error"
         | none => "External service error")
    | none =>
      (match c.messageProp with
       | some em => if em ≠ "" then em else "External service error"
       | none => "External service error")
  { status := status, message := .one message
    type := "ExternalServiceError"
    code := some ("EXTERNAL_SERVICE_" ++ showQ status), details := none }

/-- `handleValidationError` (class-validator style). -/
def handleValidationError (c : Caught) : ErrorInfo :=
  let messages :=
    match (match c with | .objVal e => e.details | _ => none) with
    | some (.arr l) => l.map (fun d => displayJVal ((objGet d "message").getD .undefined))
    | _ => ["Validation failed"]
  { status := 400, message := .many messages
    type := "ValidationError", code := some "VALIDATION_ERROR", details := none }

/-- `handleFileSystemError`. -/
def handleFileSystemError (c : Caught) : ErrorInfo :=
  let code :=
    match c.codeProp with
    | some (.str s) => s
    | _ => ""
  let si : ℚ × String :=
    if code = "ENOENT" then (404, "File or directory not found")
    else if code = "EACCES" then (403, "Permission denied")
    else if code = "EMFILE" then (500, "Too many open files")
    else if code = "ENOTDIR" then (400, "Not a directory")
    else (500, "File system error")
  { status := si.1, message := .one si.2, type := "FileSystemError",
    code := some code, details := none }

/-- `handleNetworkError`. -/
def handleNetworkError (c : Caught) : ErrorInfo :=
  let code :=
    match c.codeProp with
    | some (.str s) => s
    | _ => ""
  let si : ℚ × String :=
    if code = "ECONNREFUSED" then (503, "Connection refused")
    else if code = "ETIMEDOUT" then (408, "Connection timeout")
    else if code = "ENOTFOUND" then (404, "Host not found")
    else if code = "ECONNRESET" then (502, "Connection reset")
    else (502, "Network error")
  { status := si.1, message := .one si.2, type := "NetworkError",
    code := some code, details := none }

/-- `handlePermissionError`. -/
def handlePermissionError (_c : Caught) : ErrorInfo :=
  { status := 403, message := .one "Insufficient permissions",
    type := "PermissionError", code := some "PERMISSION_DENIED", details := none }

/-- `handleRateLimitError`. -/
def handleRateLimitError (_c : Caught) : ErrorInfo :=
  { status := 429, message := .one "Rate limit exceeded",
    type := "RateLimitError", code := some "RATE_LIMIT_EXCEEDED", details := none }

/-- `handleNativeError`. -/
def handleNativeError (devMode : Bool) (c : Caught) : ErrorInfo :=
  let ctor := (c.ctorNameProp).getD "Object"
  let si : ℚ × String :=
    if ctor = "TypeError" then (400, "Type error occurred")
    else if ctor = "ReferenceError" then (500, "Reference error occurred")
    else if ctor = "SyntaxError" then (400, "Syntax error in request")
    else if ctor = "RangeError" then (400, "Value out of range")
    else
      (500, match c.messageProp with
            | some m => if m ≠ "" then m else "Internal server error"
            | none => "Internal server error")
  { status := si.1, message := .one si.2, type := ctor,
    code := some "NATIVE_ERROR"
    details := if devMode then some .stackTrace else none }

/-- The predicate/handler chain below the `HttpException` passthrough,
first match wins; no match falls through to the native-`Error` handler and
finally the catch-all unknown record. -/
def classifyChain (devMode : Bool) (c : Caught) : ErrorInfo :=
  if isJWTError c then handleJWTError c
  else if isMongooseError c then handleMongooseError devMode c
  else if isMongoDBDriverError c then handleMongoDBDriverError devMode c
  else if isAxiosError c then handleAxiosError c
  else if isValidationError c then handleValidationError c
  else if isFileSystemError c then handleFileSystemError c
  else if isNetworkError c then handleNetworkError c
  else if isPermissionError c then handlePermissionError c
  else if isRateLimitError c then handleRateLimitError c
  else if isErrorInstance c then handleNativeError devMode c
  else
    { status := 500, message := .one "An unexpected error occurred",
      type := "UnknownError", code := some "UNKNOWN_ERROR"
      details := if devMode then some .wholeException else none }

/-- `formatException`: the `HttpException` passthrough followed by the fixed
classification chain. -/
def formatException (devMode : Bool) (c : Caught) : ErrorInfo :=
  match c with
  | .httpExc status respMessage ctor =>
    { status := status, message := .one respMessage, type := ctor,
      code := some ("HTTP_" ++ showQ status), details := none }
  | c => classifyChain devMode c

/-- The plain object `{status: 400, message: 'Invalid filter format'}`
thrown by `filterParamsDecoder` on parse failure, as a caught value. -/
def filterFormatThrown : Caught :=
  .objVal { status := some 400, message := some "Invalid filter format" }

/-- The plain object `{status: 400, message: 'Bad Sort Format'}` thrown by
`sortParamsDecoder`, as a caught value. -/
def sortFormatThrown : Caught :=
  .objVal { status := some 400, message := some "Bad Sort Format" }

/-! ## General lemmas about the embedding -/


/-- The operators of the filter grammar (§3 of the specification). -/
def knownOps : List String :=
  ["eq", "like", "in", "gt", "lt", "gte", "lte", "ne", "month", "day"]

/-- The next calendar day after a valid proleptic-Gregorian date. -/
def nextCalendarDay (y m d : ℕ) : ℕ × ℕ × ℕ :=
  if d < daysInMonth y m then (y, m, d + 1)
  else if m < 12 then (y, m + 1, 1)
  else (y + 1, 1, 1)

theorem den_cast_ne (a : ℚ) : ((a.den : ℚ)) ≠ 0 := by
  exact_mod_cast a.den_nz

theorem mul_den_eq_num (a : ℚ) : a * (a.den : ℚ) = (a.num : ℚ) :=
  calc a * (a.den : ℚ) = ((a.num : ℚ) / a.den) * a.den := by rw [Rat.num_div_den]
    _ = (a.num : ℚ) := div_mul_cancel₀ _ (den_cast_ne a)

theorem qAdd_eq (a b : ℚ) : qAdd a b = a + b := by
  rw [qAdd, Rat.mkRat_eq_div]
  push_cast
  rw [div_eq_iff (mul_ne_zero (den_cast_ne a) (den_cast_ne b))]
  linear_combination (-(b.den : ℚ)) * mul_den_eq_num a - (a.den : ℚ) * mul_den_eq_num b

theorem qSub_eq (a b : ℚ) : qSub a b = a - b := by
  rw [qSub, Rat.mkRat_eq_div]
  push_cast
  rw [div_eq_iff (mul_ne_zero (den_cast_ne a) (den_cast_ne b))]
  linear_combination (-(b.den : ℚ)) * mul_den_eq_num a + (a.den : ℚ) * mul_den_eq_num b

theorem qMul_eq (a b : ℚ) : qMul a b = a * b := by
  rw [qMul, Rat.mkRat_eq_div]
  push_cast
  rw [div_eq_iff (mul_ne_zero (den_cast_ne a) (den_cast_ne b))]
  linear_combination (-(b.num : ℚ)) * mul_den_eq_num a - a * (a.den : ℚ) * mul_den_eq_num b

theorem qDiv_eq (a b : ℚ) : qDiv a b = a / b := by
  rw [qDiv, Rat.divInt_eq_div]
  rcases eq_or_ne b 0 with rfl | hb
  · simp
  · have hbn : (b.num : ℚ) ≠ 0 := by
      exact_mod_cast Rat.num_ne_zero.mpr hb
    push_cast
    rw [div_eq_div_iff (mul_ne_zero (den_cast_ne a) hbn) hb]
    linear_combination (-(b.num : ℚ)) * mul_den_eq_num a + (a.num : ℚ) * mul_den_eq_num b

theorem ratCeil_eq (q : ℚ) : ratCeil q = ⌈q⌉ := by
  have hd : (0 : ℤ) < (q.den : ℤ) := by exact_mod_cast q.pos
  have hkey : ratCeil q * (q.den : ℤ) + (q.num + q.den - 1) % q.den
      = q.num + q.den - 1 := by
    rw [Int.mul_comm]; exact Int.ediv_add_emod _ _
  have hr0 : 0 ≤ (q.num + q.den - 1) % (q.den : ℤ) :=
    Int.emod_nonneg _ (by omega)
  have hrlt : (q.num + q.den - 1) % (q.den : ℤ) < q.den :=
    Int.emod_lt_of_pos _ hd
  have hA : q ≤ (ratCeil q : ℚ) := by
    rw [Rat.le_def]
    simp only [Rat.num_intCast, Rat.den_intCast, mul_one]
    omega
  have hB : ((ratCeil q - 1 : ℤ) : ℚ) < q := by
    rw [Rat.lt_def]
    simp only [Rat.num_intCast, Rat.den_intCast, mul_one, Int.sub_mul, Int.one_mul]
    omega
  refine le_antisymm ?_ (Int.ceil_le.mpr hA)
  by_contra h
  push_neg at h
  have h1 : ⌈q⌉ ≤ ratCeil q - 1 := by omega
  have h2 : q ≤ ((ratCeil q - 1 : ℤ) : ℚ) :=
    le_trans (Int.le_ceil q) (by exact_mod_cast h1)
  exact lt_irrefl q (lt_of_le_of_lt h2 hB)

/-- A JavaScript number: an exact rational, `NaN`, or a signed infinity. -/

theorem objGet_obj (kvs : List (String × JVal)) (k : String) :
    objGet (.obj kvs) k = (kvs.find? (fun kv => kv.1 == k)).map (·.2) := rfl

theorem objGet_removeKeys (fields : List String) (k : String) (v : JVal)
    (h : fields.contains k = true) : objGet (removeKeys fields v) k = none := by
  cases v with
  | obj kvs =>
    simp only [removeKeys, objGet]
    have hn : List.find? (fun kv => kv.1 == k)
        (kvs.filter (fun kv => ¬ fields.contains kv.1)) = none := by
      rw [List.find?_eq_none]
      intro p hp hbeq
      have h2 := (List.mem_filter.mp hp).2
      have hpk : p.1 = k := by simpa using hbeq
      rw [hpk, h] at h2
      simp at h2
    rw [hn]
    rfl
  | null => rfl
  | undefined => rfl
  | bool b => rfl
  | num q => rfl
  | str s => rfl
  | oid s => rfl
  | date ms => rfl
  | regexp p f => rfl
  | arr xs => rfl

theorem objGet_upsertKV_self (kvs : List (String × JVal)) (k : String) (v : JVal) :
    objGet (.obj (upsertKV kvs k v)) k = some v := by
  simp only [objGet, upsertKV]
  by_cases hany : (kvs.any fun kv => kv.1 == k) = true
  · rw [if_pos hany, List.find?_map]
    have hpred : ((fun p : String × JVal => p.1 == k) ∘
        (fun kv : String × JVal => if kv.1 == k then (k, v) else kv))
        = (fun kv : String × JVal => kv.1 == k) := by
      funext kv
      by_cases hkv : (kv.1 == k) = true
      · have he := beq_iff_eq.mp hkv
        simp [he]
      · have he : ¬ kv.1 = k := by simpa using hkv
        simp [he]
    rw [hpred]
    cases hfind : kvs.find? (fun kv => kv.1 == k) with
    | none =>
      obtain ⟨p, hp, hpk⟩ := List.any_eq_true.mp hany
      rw [List.find?_eq_none] at hfind
      exact absurd hpk (hfind p hp)
    | some q =>
      have hq := List.find?_some hfind
      simp only [Option.map_some']
      rw [if_pos hq]
  · rw [if_neg hany, List.find?_append]
    have h1 : kvs.find? (fun kv => kv.1 == k) = none := by
      rw [List.find?_eq_none]
      intro x hx hbeq
      exact hany (List.any_eq_true.mpr ⟨x, hx, hbeq⟩)
    simp [h1, List.find?]

theorem objGet_upsertKV_other (kvs : List (String × JVal)) (k k' : String)
    (v : JVal) (h : k' ≠ k) :
    objGet (.obj (upsertKV kvs k' v)) k = objGet (.obj kvs) k := by
  simp only [objGet, upsertKV]
  by_cases hany : (kvs.any fun kv => kv.1 == k') = true
  · rw [if_pos hany, List.find?_map]
    have hpred : ((fun p : String × JVal => p.1 == k) ∘
        (fun kv : String × JVal => if kv.1 == k' then (k', v) else kv))
        = (fun kv : String × JVal => kv.1 == k) := by
      funext kv
      by_cases hkv : (kv.1 == k') = true
      · have h2 : kv.1 = k' := by simpa using hkv
        simp [h2, h]
      · have h2 : ¬ kv.1 = k' := by simpa using hkv
        simp [h2]
    rw [hpred]
    cases hfind : kvs.find? (fun kv => kv.1 == k) with
    | none => rfl
    | some p =>
      have hp := List.find?_some hfind
      simp only [] at hp
      have hne : ¬ p.1 = k' := by
        rw [beq_iff_eq.mp hp]
        exact fun he => h he.symm
      simp [hne]
  · rw [if_neg hany, List.find?_append]
    have h2 : List.find? (fun kv => kv.1 == k) [(k', v)] = none := by
      rw [List.find?_eq_none]
      intro x hx hbeq
      rw [List.mem_singleton] at hx
      subst hx
      exact h (beq_iff_eq.mp hbeq)
    rw [h2]
    cases kvs.find? (fun kv => kv.1 == k) <;> rfl

theorem upsertKV_key_mem (kvs : List (String × JVal)) (k : String) (v : JVal) :
    ∃ p, p ∈ upsertKV kvs k v ∧ p.1 = k ∧ p.2 = v := by
  unfold upsertKV
  by_cases h : (kvs.any fun kv => kv.1 == k) = true
  · rw [if_pos h]
    obtain ⟨q, hq, hqk⟩ := List.any_eq_true.mp h
    exact ⟨(k, v), List.mem_map.mpr ⟨q, hq, by simp [hqk]⟩, rfl, rfl⟩
  · rw [if_neg h]
    exact ⟨(k, v), List.mem_append.mpr (.inr (List.mem_singleton.mpr rfl)), rfl, rfl⟩

theorem upsertKV_key_val (kvs : List (String × JVal)) (k : String) (v : JVal)
    (p : String × JVal) (hp : p ∈ upsertKV kvs k v) (hk : p.1 = k) : p.2 = v := by
  unfold upsertKV at hp
  by_cases h : (kvs.any fun kv => kv.1 == k) = true
  · rw [if_pos h] at hp
    obtain ⟨kv, hmem, heq⟩ := List.mem_map.mp hp
    by_cases hkv : (kv.1 == k) = true
    · rw [if_pos hkv] at heq
      rw [← heq]
    · rw [if_neg hkv] at heq
      subst heq
      exact absurd (beq_iff_eq.mpr hk) hkv
  · rw [if_neg h] at hp
    rcases List.mem_append.mp hp with hp | hp
    · exact absurd (List.any_eq_true.mpr ⟨p, hp, by simpa using hk⟩) h
    · rw [List.mem_singleton.mp hp]

theorem entriesMatch_cons (doc : JVal) (k : String) (spec : JVal)
    (rest : List (String × JVal)) :
    entriesMatch doc ((k, spec) :: rest)
      = ((if k = "$and" then andSpecMatch doc spec
          else if k = "$or" then orSpecMatch doc spec
          else fieldMatches (objGet doc k) spec)
        && entriesMatch doc rest) := rfl

theorem entriesMatch_forall (doc : JVal) (l : List (String × JVal))
    (h : entriesMatch doc l = true) (kv : String × JVal) (hkv : kv ∈ l)
    (h1 : kv.1 ≠ "$and") (h2 : kv.1 ≠ "$or") :
    fieldMatches (objGet doc kv.1) kv.2 = true := by
  induction l with
  | nil => cases hkv
  | cons hd tl ih =>
    obtain ⟨k0, v0⟩ := hd
    rw [entriesMatch_cons, Bool.and_eq_true] at h
    rw [List.mem_cons] at hkv
    rcases hkv with rfl | hkv
    · have hm := h.1
      rwa [if_neg (by exact h1), if_neg (by exact h2)] at hm
    · exact ih h.2 hkv

theorem eqMatches_bool_false_ne_true (fv : Option JVal)
    (h : eqMatches fv (.bool false) = true) : fv ≠ some (.bool true) := by
  intro he
  subst he
  simp only [eqMatches, Bool.or_eq_true] at h
  rcases h with h | h
  · simp [jbeq] at h
  · simp at h

/-- A document matching the read filter `{...data, isDeleted: false}` has an
`isDeleted` field that equality-matches `false`, hence is never `true`. -/
theorem match_withIsDeleted_not_true (doc : JVal) (data : List (String × JVal))
    (h : docMatches doc (.obj (withIsDeleted data false)) = true) :
    objGet doc "isDeleted" ≠ some (.bool true) := by
  rw [docMatches] at h
  obtain ⟨p, hmem, hk, hv⟩ := upsertKV_key_mem data "isDeleted" (.bool false)
  have hfm := entriesMatch_forall doc _ h p hmem
    (by rw [hk]; decide) (by rw [hk]; decide)
  rw [hk, hv] at hfm
  have : fieldMatches (objGet doc "isDeleted") (.bool false)
      = eqMatches (objGet doc "isDeleted") (.bool false) := rfl
  rw [this] at hfm
  exact eqMatches_bool_false_ne_true _ hfm

/-! ## C6: `update` forces `isDeleted = false` -/

theorem objGet_setFields_isDeleted (doc : JVal) (data : List (String × JVal))
    (hobj : ∃ l, doc = .obj l) :
    objGet (setFields doc (withIsDeleted data false)) "isDeleted"
      = some (.bool false) := by
  obtain ⟨l, rfl⟩ := hobj
  rw [setFields]
  have key : ∀ (es : List (String × JVal)) (acc : List (String × JVal)),
      (∀ p ∈ es, p.1 = "isDeleted" → p.2 = .bool false) →
      ((∃ p ∈ es, p.1 = "isDeleted") ∨
        objGet (.obj acc) "isDeleted" = some (.bool false)) →
      objGet (.obj (es.foldl (fun acc kv => upsertKV acc kv.1 kv.2) acc))
        "isDeleted" = some (.bool false) := by
    intro es
    induction es with
    | nil =>
      intro acc _ hex
      rcases hex with ⟨p, hp, _⟩ | hex
      · cases hp
      · simpa using hex
    | cons e rest ih =>
      intro acc hval hex
      simp only [List.foldl_cons]
      by_cases hk : e.1 = "isDeleted"
      · refine ih _ (fun p hp => hval p (.tail _ hp)) (.inr ?_)
        rw [hk, hval e (List.mem_cons_self ..) hk]
        exact objGet_upsertKV_self ..
      · rcases hex with ⟨p, hp, hpk⟩ | hex
        · rw [List.mem_cons] at hp
          rcases hp with hp | hp
          · exact absurd (hp ▸ hpk) hk
          · exact ih _ (fun p hp => hval p (.tail _ hp)) (.inl ⟨p, hp, hpk⟩)
        · refine ih _ (fun p hp => hval p (.tail _ hp)) (.inr ?_)
          rw [objGet_upsertKV_other _ _ _ _ hk]
          exact hex
  obtain ⟨p, hmem, hk, hv⟩ := upsertKV_key_mem data "isDeleted" (.bool false)
  exact key _ _ (fun p hp hk => upsertKV_key_val data _ _ p hp hk)
    (.inl ⟨p, hmem, hk⟩)

/-- C6 (amended): `update(id, data)` rewrites the identified record with the
provided fields and unconditionally forces `isDeleted = false` as part of the
write; consequently soft-deleted records are *not* protected — a record whose
`isDeleted` flag was `true` before the call comes back live: in a state of
object documents, whenever `update` returns a document, that document's
`isDeleted` field is `false`, regardless of its previous value. -/
theorem update_forces_isDeleted_false (st : List JVal) (id : JVal)
    (data : List (String × JVal)) (d : JVal)
    (hobj : ∀ doc ∈ st, ∃ l, doc = .obj l)
    (h : (Repo.update st id data).1 = some d) :
    objGet d "isDeleted" = some (.bool false) := by
  rw [Repo.update] at h
  induction st with
  | nil => simp [findByIdAndUpdate] at h
  | cons doc rest ih =>
    rw [findByIdAndUpdate] at h
    by_cases hm : docMatches doc (.obj [("_id", id)]) = true
    · rw [if_pos hm] at h
      simp only [Option.some.injEq] at h
      rw [← h]
      exact objGet_setFields_isDeleted doc data (hobj doc (List.mem_cons_self ..))
    · rw [if_neg hm] at h
      exact ih (fun p hp => hobj p (.tail _ hp)) h

/-- C6 counterexample to the claim as stated: the claim asserts that a record
whose `isDeleted` flag was `true` before the call does not become live as a
result of the update; but in the one-record state whose record is
soft-deleted, `update` with an empty payload returns that record with
`isDeleted` now `false` — the record did become live. -/
theorem update_resurrects_counterexample :
    objGet (.obj [("_id", .str "1"), ("isDeleted", .bool true)]) "isDeleted"
      = some (.bool true)
    ∧ (Repo.update [.obj [("_id", .str "1"), ("isDeleted", .bool true)]]
        (.str "1") []).1
      = some (.obj [("_id", .str "1"), ("isDeleted", .bool false)])
    ∧ objGet (.obj [("_id", .str "1"), ("isDeleted", .bool false)]) "isDeleted"
      ≠ some (.bool true) := by
  refine ⟨rfl, rfl, ?_⟩
  intro h
  rw [show objGet (.obj [("_id", .str "1"), ("isDeleted", .bool false)])
      "isDeleted" = some (.bool false) from rfl] at h
  simp at h

/-- Witness for the amended C6 theorem at a concrete input. -/
theorem update_forces_isDeleted_false_witness :
    objGet (.obj [("_id", .str "7"), ("isDeleted", .bool true),
        ("amount", .num 3)]) "isDeleted" = some (.bool true)
    ∧ (Repo.update [.obj [("_id", .str "7"), ("isDeleted", .bool true),
        ("amount", .num 3)]] (.str "7") [("amount", .num 4)]).1
      = some (.obj [("_id", .str "7"), ("isDeleted", .bool false),
        ("amount", .num 4)])
    ∧ objGet (.obj [("_id", .str "7"), ("isDeleted", .bool false),
        ("amount", .num 4)]) "isDeleted" = some (.bool false) := by
  refine ⟨rfl, rfl, ?_⟩
  exact update_forces_isDeleted_false
    [.obj [("_id", .str "7"), ("isDeleted", .bool true), ("amount", .num 3)]]
    (.str "7") [("amount", .num 4)] _
    (by intro doc hd
        rw [List.mem_singleton] at hd
        exact ⟨_, hd⟩)
    rfl

/-! ## C10: default projections of the read operations -/

theorem applySelect_password (doc : JVal) :
    applySelect (.strSpec "-password") doc = removeKeys ["password"] doc := rfl

theorem projectDoc_password (doc : JVal) :
    projectDoc [("password", 0)] doc = removeKeys ["password"] doc := rfl

/-- An inclusion projection drops every field that is neither listed nor
`_id`. -/
theorem objGet_keepKeys_none (ks : List String) (omitId : Bool) (doc : JVal)
    (k : String) (hk : k ∉ ks) (hid : k ≠ "_id") :
    objGet (keepKeys ks omitId doc) k = none := by
  cases doc with
  | obj kvs =>
    simp only [keepKeys, objGet]
    have hn : List.find? (fun kv => kv.1 == k)
        (kvs.filter (fun kv =>
          ks.contains kv.1 || (kv.1 = "_id" && !omitId))) = none := by
      rw [List.find?_eq_none]
      intro p hp hbeq
      have h2 := (List.mem_filter.mp hp).2
      have hpk : p.1 = k := by simpa using hbeq
      rw [hpk] at h2
      simp [hk, hid] at h2
    rw [hn]
    rfl
  | null => rfl
  | undefined => rfl
  | bool b => rfl
  | num q => rfl
  | str s => rfl
  | oid s => rfl
  | date ms => rfl
  | regexp p f => rfl
  | arr xs => rfl

/-- The spread `{password: 0, ...projection}`: when the supplied projection
does not itself name `password`, the merged select document still carries
the `password: 0` entry and no other `password` entry. -/
theorem mergedSel_password (p : List (String × ℚ))
    (hp : "password" ∉ p.map (fun kv => kv.1)) :
    ("password", (0 : ℚ)) ∈ RepoA.mergedSel (some p)
    ∧ ∀ kv ∈ RepoA.mergedSel (some p), kv.1 = "password" → kv.2 = 0 := by
  have key : ∀ (q acc : List (String × ℚ)),
      "password" ∉ q.map (fun kv => kv.1) →
      ("password", (0 : ℚ)) ∈ acc →
      (∀ kv ∈ acc, kv.1 = "password" → kv.2 = 0) →
      ("password", (0 : ℚ)) ∈ q.foldl (fun acc kv =>
          if acc.any (fun kv' => kv'.1 == kv.1) then
            acc.map (fun kv' => if kv'.1 == kv.1 then kv else kv')
          else acc ++ [kv]) acc
      ∧ ∀ kv ∈ q.foldl (fun acc kv =>
          if acc.any (fun kv' => kv'.1 == kv.1) then
            acc.map (fun kv' => if kv'.1 == kv.1 then kv else kv')
          else acc ++ [kv]) acc, kv.1 = "password" → kv.2 = 0 := by
    intro q
    induction q with
    | nil => exact fun acc _ h1 h2 => ⟨h1, h2⟩
    | cons e rest ih =>
      intro acc hq h1 h2
      rw [List.foldl_cons]
      have hep : e.1 ≠ "password" := by
        intro he
        exact hq (by rw [List.map_cons, he]; exact List.mem_cons_self _ _)
      have hrest : "password" ∉ rest.map (fun kv => kv.1) := by
        intro hm
        exact hq (by rw [List.map_cons]; exact List.mem_cons_of_mem _ hm)
      have hb : (("password" : String) == e.1) = false := by
        rw [beq_eq_false_iff_ne]
        exact fun h => hep h.symm
      refine ih _ hrest ?_ ?_
      · by_cases hany : (acc.any (fun kv' => kv'.1 == e.1)) = true
        · rw [if_pos hany]
          refine List.mem_map.mpr ⟨("password", 0), h1, ?_⟩
          simp [hb]
        · rw [if_neg hany]
          exact List.mem_append_left _ h1
      · intro kv hkv hpw
        by_cases hany : (acc.any (fun kv' => kv'.1 == e.1)) = true
        · rw [if_pos hany] at hkv
          obtain ⟨a, ha, hae⟩ := List.mem_map.mp hkv
          by_cases haeq : (a.1 == e.1) = true
          · rw [if_pos haeq] at hae
            subst hae
            exact absurd hpw hep
          · rw [if_neg haeq] at hae
            subst hae
            exact h2 _ ha hpw
        · rw [if_neg hany] at hkv
          rcases List.mem_append.mp hkv with hmem | hmem
          · exact h2 _ hmem hpw
          · rw [List.mem_singleton] at hmem
            subst hmem
            exact absurd hpw hep
  exact key p [("password", 0)] hp (List.mem_singleton.mpr rfl)
    (fun kv hkv _ => by rw [List.mem_singleton] at hkv; subst hkv; rfl)

/-- A `{field: 0|1}` projection document that carries a `password: 0` entry
and no nonzero `password` entry never lets the credential field through. -/
theorem projectDoc_password_of_sel (sel : List (String × ℚ)) (doc : JVal)
    (hmem : ("password", (0 : ℚ)) ∈ sel)
    (hall : ∀ kv ∈ sel, kv.1 = "password" → kv.2 = 0) :
    objGet (projectDoc sel doc) "password" = none := by
  show objGet (if ((sel.filter (fun kv => kv.2 ≠ 0)).map (fun kv => kv.1)).isEmpty
      then removeKeys ((sel.filter (fun kv => kv.2 = 0)).map (fun kv => kv.1)) doc
      else keepKeys ((sel.filter (fun kv => kv.2 ≠ 0)).map (fun kv => kv.1))
        (sel.contains ("_id", 0)) doc) "password" = none
  by_cases hemp : ((sel.filter (fun kv => kv.2 ≠ 0)).map (fun kv => kv.1)).isEmpty
  · rw [if_pos hemp]
    refine objGet_removeKeys _ _ _ ?_
    have hm : "password" ∈ (sel.filter (fun kv => kv.2 = 0)).map (fun kv => kv.1) :=
      List.mem_map.mpr ⟨("password", 0), List.mem_filter.mpr ⟨hmem, by decide⟩, rfl⟩
    simpa using hm
  · rw [if_neg hemp]
    refine objGet_keepKeys_none _ _ _ _ ?_ (by decide)
    intro hmem2
    obtain ⟨kv, hkv, hkvp⟩ := List.mem_map.mp hmem2
    have hf := List.mem_filter.mp hkv
    have hne : kv.2 ≠ 0 := by simpa using hf.2
    exact hne (hall kv hf.1 hkvp)

/-- C10 (amended): in repository variant A, `findAll` and `findOne` exclude
the credential field by default (`'-password'`) and use a supplied projection
in its place, while `find` spreads the supplied projection over a default
`{password: 0}` exclusion — so the credential field remains excluded
whenever the supplied projection does not itself name `password`, rather
than the projection being applied instead; in variant B, however, `findAll`
ignores its projection argument entirely and returns documents with all
their fields — including `password` — and `findOne` never applies a
projection. -/
theorem default_projection_excludes_password
    (st : List JVal) (data : List (String × JVal))
    (filter : List (String × JVal)) (p : Projection)
    (projB : Option Projection) :
    (∀ d ∈ RepoA.findAll st data none, objGet d "password" = none)
    ∧ (∀ d, RepoA.findOne st data none = some d → objGet d "password" = none)
    ∧ (∀ d ∈ RepoA.find st filter none, objGet d "password" = none)
    ∧ (∀ (psel : List (String × ℚ)), "password" ∉ psel.map (fun kv => kv.1) →
        ∀ d ∈ RepoA.find st filter (some psel), objGet d "password" = none)
    ∧ RepoA.findAll st data (some p)
      = (RepoB.findAll st data none).map (applySelect p)
    ∧ RepoA.findOne st data (some p)
      = (RepoB.findOne st data none).map (applySelect p)
    ∧ RepoB.findAll st data projB = RepoB.findAll st data none
    ∧ RepoB.findOne st data projB = RepoB.findOne st data none := by
  refine ⟨?_, ?_, ?_, ?_, rfl, rfl, rfl, rfl⟩
  · intro d hd
    rw [RepoA.findAll] at hd
    obtain ⟨doc, _, rfl⟩ := List.mem_map.mp hd
    rw [Option.getD_none, applySelect_password]
    exact objGet_removeKeys _ _ _ rfl
  · intro d hd
    rw [RepoA.findOne] at hd
    obtain ⟨doc, _, hde⟩ := Option.map_eq_some'.mp hd
    rw [← hde, Option.getD_none, applySelect_password]
    exact objGet_removeKeys _ _ _ rfl
  · intro d hd
    rw [RepoA.find] at hd
    obtain ⟨doc, _, rfl⟩ := List.mem_map.mp hd
    show objGet (projectDoc [("password", 0)] doc) "password" = none
    rw [projectDoc_password]
    exact objGet_removeKeys _ _ _ rfl
  · intro psel hpsel d hd
    rw [RepoA.find] at hd
    obtain ⟨doc, _, rfl⟩ := List.mem_map.mp hd
    obtain ⟨hm, hall⟩ := mergedSel_password psel hpsel
    exact projectDoc_password_of_sel _ doc hm hall

/-- C10 counterexample to the claim as stated: variant B `findAll` (with the
projection argument omitted) returns the stored document with its `password`
field present, not excluded; and variant A `find` called with the projection
`{name: 0}` does not apply that projection instead of the default — the
returned document lacks `password` as well as `name`, because the supplied
projection is spread over `{password: 0}`. -/
theorem findAll_returns_password_counterexample :
    (RepoB.findAll
      [.obj [("_id", .str "1"), ("isDeleted", .bool false),
        ("password", .str "pw")]] [] none
      = [.obj [("_id", .str "1"), ("isDeleted", .bool false),
        ("password", .str "pw")]]
    ∧ objGet (.obj [("_id", .str "1"), ("isDeleted", .bool false),
        ("password", .str "pw")]) "password"
      = some (.str "pw")
    ∧ some (JVal.str "pw") ≠ none)
    ∧ RepoA.find
      [.obj [("_id", .str "1"), ("isDeleted", .bool false),
        ("name", .str "n"), ("password", .str "pw")]] []
      (some [("name", 0)])
      = [.obj [("_id", .str "1"), ("isDeleted", .bool false)]] := by
  exact ⟨⟨rfl, rfl, Option.some_ne_none _⟩, rfl⟩

/-- Witness for the amended C10 theorem at concrete inputs: the default
projection of variant A `findAll`, and `find` under the supplied projection
`{name: 0}`, both return the stored record without its credential field. -/
theorem default_projection_excludes_password_witness :
    objGet (.obj [("_id", .str "1"), ("isDeleted", .bool false)]) "password"
      = none
    ∧ objGet (.obj [("_id", .str "2"), ("isDeleted", .bool false)]) "password"
      = none := by
  constructor
  · refine (default_projection_excludes_password
      [.obj [("_id", .str "1"), ("isDeleted", .bool false),
        ("password", .str "pw")]]
      [] [] (.strSpec "-password") none).1
      (.obj [("_id", .str "1"), ("isDeleted", .bool false)]) ?_
    rw [show RepoA.findAll
        [.obj [("_id", .str "1"), ("isDeleted", .bool false),
          ("password", .str "pw")]] [] none
        = [.obj [("_id", .str "1"), ("isDeleted", .bool false)]] from rfl]
    exact List.mem_singleton.mpr rfl
  · refine (default_projection_excludes_password
      [.obj [("_id", .str "2"), ("isDeleted", .bool false),
        ("name", .str "n"), ("password", .str "pw")]]
      [] [] (.strSpec "-password") none).2.2.2.1
      [("name", 0)] (by decide)
      (.obj [("_id", .str "2"), ("isDeleted", .bool false)]) ?_
    rw [show RepoA.find
        [.obj [("_id", .str "2"), ("isDeleted", .bool false),
          ("name", .str "n"), ("password", .str "pw")]] []
        (some [("name", 0)])
        = [.obj [("_id", .str "2"), ("isDeleted", .bool false)]] from rfl]
    exact List.mem_singleton.mpr rfl

/-! ## C2: soft-delete filtering of the read operations -/

/-- C2 (amended): the variant-A read operations `find`, `findAll` and
`findOne` each return only (projections of) stored records whose `isDeleted`
flag equality-matches `false` — in particular records whose flag is `true`
are never included; `findById`, however, performs no soft-delete filtering at
all and returns the record with the requested `_id` even when it is
soft-deleted. -/
theorem reads_exclude_soft_deleted (st : List JVal)
    (data filter : List (String × JVal)) (proj : Option Projection)
    (projF : Option (List (String × ℚ))) :
    (∀ d ∈ RepoA.findAll st data proj, ∃ doc ∈ st,
      objGet doc "isDeleted" ≠ some (.bool true)
      ∧ d = applySelect (proj.getD (.strSpec "-password")) doc)
    ∧ (∀ d, RepoA.findOne st data proj = some d → ∃ doc ∈ st,
      objGet doc "isDeleted" ≠ some (.bool true)
      ∧ d = applySelect (proj.getD (.strSpec "-password")) doc)
    ∧ (∀ d ∈ RepoA.find st filter projF, ∃ doc ∈ st,
      objGet doc "isDeleted" ≠ some (.bool true)
      ∧ d = projectDoc (RepoA.mergedSel projF) doc) := by
  refine ⟨?_, ?_, ?_⟩
  · intro d hd
    rw [RepoA.findAll] at hd
    obtain ⟨doc, hdoc, rfl⟩ := List.mem_map.mp hd
    have hf := List.mem_filter.mp hdoc
    exact ⟨doc, hf.1, match_withIsDeleted_not_true doc data hf.2, rfl⟩
  · intro d hd
    rw [RepoA.findOne] at hd
    obtain ⟨doc, hdoc, hde⟩ := Option.map_eq_some'.mp hd
    have hmem := List.mem_of_mem_head? hdoc
    have hf := List.mem_filter.mp hmem
    exact ⟨doc, hf.1, match_withIsDeleted_not_true doc data hf.2, hde.symm⟩
  · intro d hd
    rw [RepoA.find] at hd
    obtain ⟨doc, hdoc, rfl⟩ := List.mem_map.mp hd
    have hf := List.mem_filter.mp hdoc
    exact ⟨doc, hf.1, match_withIsDeleted_not_true doc filter hf.2, rfl⟩

/-- C2 counterexample to the claim as stated: `findById` does not exclude
soft-deleted records — it returns the record with the requested id even
though its `isDeleted` flag is `true`. -/
theorem findById_returns_soft_deleted_counterexample :
    RepoA.findById [.obj [("_id", .str "1"), ("isDeleted", .bool true)]]
      (.str "1")
      = some (.obj [("_id", .str "1"), ("isDeleted", .bool true)])
    ∧ objGet (.obj [("_id", .str "1"), ("isDeleted", .bool true)]) "isDeleted"
      = some (.bool true) :=
  ⟨rfl, rfl⟩

/-- Witness for the amended C2 theorem at a concrete input. -/
theorem reads_exclude_soft_deleted_witness :
    ∃ doc ∈ [JVal.obj [("_id", .str "1"), ("isDeleted", .bool false)],
      JVal.obj [("_id", .str "2"), ("isDeleted", .bool true)]],
      objGet doc "isDeleted" ≠ some (.bool true)
      ∧ JVal.obj [("_id", .str "1"), ("isDeleted", .bool false)]
        = applySelect ((none : Option Projection).getD (.strSpec "-password")) doc := by
  refine (reads_exclude_soft_deleted
    [JVal.obj [("_id", .str "1"), ("isDeleted", .bool false)],
      JVal.obj [("_id", .str "2"), ("isDeleted", .bool true)]]
    [] [] none none).1 (.obj [("_id", .str "1"), ("isDeleted", .bool false)]) ?_
  rw [show RepoA.findAll
      [JVal.obj [("_id", .str "1"), ("isDeleted", .bool false)],
        JVal.obj [("_id", .str "2"), ("isDeleted", .bool true)]] [] none
      = [.obj [("_id", .str "1"), ("isDeleted", .bool false)]] from rfl]
  exact List.mem_singleton.mpr rfl

/-! ## C4: the sort decoder -/

/-- C4 (amended): empty/absent input decodes to `undefined`; a leading `+`
yields direction `1` and any other leading character yields `-1`; but the
decoded field name is always the token with its *first character removed* —
for a signed token this is the intended field, while a token with no sign
loses its first character.  `"-createdAt"` decodes to `{createdAt: -1}` and
`"['+name','-age']"` to `{name: 1, age: -1}`; an unparsable bracketed input
fails with the bad-sort-format error. -/
theorem sortParamsDecoder_spec :
    (sortParamsDecoder none = .ok none)
    ∧ (sortParamsDecoder (some "") = .ok none)
    ∧ (∀ cs : List Char,
        sortParamsDecoder (some (String.mk ('+' :: cs)))
          = .ok (some [(String.mk cs, 1)]))
    ∧ (∀ cs : List Char,
        sortParamsDecoder (some (String.mk ('-' :: cs)))
          = .ok (some [(String.mk cs, -1)]))
    ∧ (∀ c : Char, ∀ cs : List Char, c ≠ '[' → c ≠ '+' →
        sortParamsDecoder (some (String.mk (c :: cs)))
          = .ok (some [(String.mk cs, -1)]))
    ∧ sortParamsDecoder (some "-createdAt") = .ok (some [("createdAt", -1)])
    ∧ sortParamsDecoder (some "['+name','-age']")
      = .ok (some [("name", 1), ("age", -1)])
    ∧ sortParamsDecoder (some "[oops") = .error .badSortFormat := by
  refine ⟨rfl, rfl, ?_, ?_, ?_, rfl, rfl, rfl⟩
  · intro cs
    simp [sortParamsDecoder, sortUpsert]
    rfl
  · intro cs
    simp [sortParamsDecoder, sortUpsert]
    rfl
  · intro c cs hbr hpl
    simp [sortParamsDecoder, sortUpsert, hbr, hpl]
    rfl

/-- C4 counterexample to the claim as stated: for the unsigned token
`"age"` the claim demands direction `-1` *for the field `age`*, but the
decoder records the direction under the mangled name `ge` (the first
character is removed even though it is not a sign). -/
theorem sortParamsDecoder_unsigned_counterexample :
    sortParamsDecoder (some "age") = .ok (some [("ge", -1)])
    ∧ (Except.ok (some [("ge", (-1 : ℤ))]) :
        Except RepoError (Option (List (String × ℤ))))
      ≠ .ok (some [("age", -1)]) := by
  refine ⟨rfl, ?_⟩
  simp

/-- Witness for the amended C4 theorem at concrete inputs. -/
theorem sortParamsDecoder_spec_witness :
    sortParamsDecoder (some (String.mk ('+' :: "name".data)))
      = .ok (some [(String.mk "name".data, 1)])
    ∧ sortParamsDecoder (some (String.mk ('t' :: "itle".data)))
      = .ok (some [(String.mk "itle".data, -1)]) :=
  ⟨sortParamsDecoder_spec.2.2.1 "name".data,
    sortParamsDecoder_spec.2.2.2.2.1 't' "itle".data (by decide) (by decide)⟩

/-! ## C7: pagination arithmetic -/

/-- C7 (amended): `queryToPagination` maps parsed page/length numbers to
`skip = (page-1)*length` and `limit = length`.  `resultToPagination` returns
`totalPages = ceil(totalItems/pageSize)` and
`currentPage = skip/limit + 1 || 1`: for a nonzero numeric `limit` that is
`skip/limit + 1` with fallback `1` when that value is `0`; at `limit = 0`
the JavaScript division makes it `1` when `skip` is `0` (`NaN` falls back)
and `±Infinity` for nonzero `skip`.  `pageSize` is `limit || 10` — it
equals `limit` only when `limit` is a nonzero number and falls back to `10`
otherwise (in particular at `limit = 0`, where the claim's
`pageSize = limit` fails); both concrete examples of the claim hold. -/
theorem pagination_spec :
    (∀ (ps pl : String) (p l : ℚ), parseIntJS ps = .fin p →
      parseIntJS pl = .fin l →
      queryToPagination ps pl = { skip := .fin ((p - 1) * l), limit := .fin l })
    ∧ (∀ (n s l : ℚ), l ≠ 0 →
      resultToPagination n ⟨.fin s, .fin l⟩ =
        { totalItems := n
          totalPages := .fin ⌈n / l⌉
          currentPage := if s / l + 1 = 0 then .fin 1 else .fin (s / l + 1)
          pageSize := .fin l })
    ∧ (∀ (n s : ℚ), (resultToPagination n ⟨.fin s, .fin 0⟩).pageSize = .fin 10)
    ∧ (∀ (n s : ℚ), (resultToPagination n ⟨.fin s, .fin 0⟩).currentPage
        = if s.num = 0 then .fin 1
          else if 0 < s.num then .posInf else .negInf)
    ∧ resultToPagination 0 ⟨.fin 0, .fin 10⟩ = ⟨0, .fin 0, .fin 1, .fin 10⟩
    ∧ resultToPagination 25 ⟨.fin 20, .fin 10⟩ = ⟨25, .fin 3, .fin 3, .fin 10⟩ := by
  refine ⟨?_, ?_, ?_, ?_, rfl, rfl⟩
  · intro ps pl p l hp hl
    rw [queryToPagination]
    simp only [hp, hl, JsNum.subC, JsNum.mul]
    rw [qSub_eq, qMul_eq]
  · intro n s l hl
    have hln : l.num ≠ 0 := Rat.num_ne_zero.mpr hl
    rw [resultToPagination]
    have hdiv : JsNum.div (.fin s) (.fin l) = .fin (s / l) := by
      rw [show JsNum.div (.fin s) (.fin l)
          = (if l.num = 0 then
              (if s.num = 0 then .nan else if 0 < s.num then .posInf else .negInf)
            else .fin (qDiv s l)) from rfl, if_neg hln, qDiv_eq]
    have hdivn : JsNum.div (.fin n) (.fin l) = .fin (n / l) := by
      rw [show JsNum.div (.fin n) (.fin l)
          = (if l.num = 0 then
              (if n.num = 0 then .nan else if 0 < n.num then .posInf else .negInf)
            else .fin (qDiv n l)) from rfl, if_neg hln, qDiv_eq]
    have haddC : (JsNum.fin (s / l)).addC 1 = .fin (s / l + 1) := by
      rw [JsNum.addC, qAdd_eq]
    have hps : (JsNum.fin l).orElse (.fin 10) = .fin l := by
      rw [JsNum.orElse, if_pos]
      simp [JsNum.truthy, hl]
    simp only [hdiv, hdivn, haddC, hps, JsNum.ceil, ratCeil_eq]
    by_cases hz : s / l + 1 = 0
    · rw [if_pos hz]
      simp [JsNum.orElse, JsNum.truthy, hz]
    · rw [if_neg hz]
      simp [JsNum.orElse, JsNum.truthy, hz]
  · intro n s
    rfl
  · intro n s
    show ((((JsNum.fin s).div (.fin 0)).addC 1).orElse (.fin 1))
      = if s.num = 0 then .fin 1 else if 0 < s.num then .posInf else .negInf
    rw [show (JsNum.fin s).div (.fin 0)
        = (if (0 : ℚ).num = 0 then
            (if s.num = 0 then JsNum.nan
             else if 0 < s.num then .posInf else .negInf)
          else .fin (qDiv s 0)) from rfl,
      if_pos (show Rat.num 0 = 0 from rfl)]
    by_cases h0 : s.num = 0
    · simp only [if_pos h0]
      rfl
    · simp only [if_neg h0]
      by_cases hp : 0 < s.num
      · simp only [if_pos hp]
        rfl
      · simp only [if_neg hp]
        rfl

/-- C7 counterexample to the claim as stated: with `limit = 0` (a legal
decimal-integer `length`), `resultToPagination` returns `pageSize = 10`,
while the claim's `pageSize = limit` demands `0`; and when
`skip/limit + 1` evaluates to `0` (a negative skip of one page), the `|| 1`
fallback fires even though the division is perfectly valid, so
`currentPage` is `1` instead of the formula's `0`. -/
theorem pagination_pageSize_counterexample :
    ((resultToPagination 7 ⟨.fin 0, .fin 0⟩).pageSize = .fin 10
      ∧ JsNum.fin 10 ≠ JsNum.fin 0)
    ∧ (resultToPagination 7 ⟨.fin (-10), .fin 10⟩).currentPage = .fin 1
    ∧ (-10 : ℚ) / 10 + 1 = 0 := by
  refine ⟨⟨rfl, ?_⟩, rfl, by norm_num⟩
  intro h
  rw [JsNum.fin.injEq] at h
  exact absurd h (by norm_num)

/-- Witness for the amended C7 theorem at concrete inputs. -/
theorem pagination_spec_witness :
    queryToPagination "3" "10"
      = { skip := .fin ((3 - 1) * 10), limit := .fin 10 }
    ∧ resultToPagination 25 ⟨.fin 20, .fin 10⟩ =
      { totalItems := 25
        totalPages := .fin ⌈(25 : ℚ) / 10⌉
        currentPage := if (20 : ℚ) / 10 + 1 = 0 then .fin 1
          else .fin ((20 : ℚ) / 10 + 1)
        pageSize := .fin 10 } :=
  ⟨pagination_spec.1 "3" "10" 3 10 rfl rfl,
    pagination_spec.2.1 25 20 10 (by norm_num)⟩

/-! ## C9: the unknown-error fallback of the classifier -/

/-- C9: any caught value that matches none of the classifier's predicates
and is not an `Error` (nor `HttpException`) instance is normalized to status
`500`, type `UnknownError`, the opaque message, and code `UNKNOWN_ERROR`,
in any environment mode. -/
theorem formatException_unknown (dev : Bool) (c : Caught)
    (h0 : isHttpException c = false)
    (h1 : isJWTError c = false) (h2 : isMongooseError c = false)
    (h3 : isMongoDBDriverError c = false) (h4 : isAxiosError c = false)
    (h5 : isValidationError c = false) (h6 : isFileSystemError c = false)
    (h7 : isNetworkError c = false) (h8 : isPermissionError c = false)
    (h9 : isRateLimitError c = false) (h10 : isErrorInstance c = false) :
    (formatException dev c).status = 500
    ∧ (formatException dev c).type = "UnknownError"
    ∧ (formatException dev c).message = .one "An unexpected error occurred"
    ∧ (formatException dev c).code = some "UNKNOWN_ERROR" := by
  cases c <;>
    first
    | (refine (?_ :
        (classifyChain dev _).status = 500
        ∧ (classifyChain dev _).type = "UnknownError"
        ∧ (classifyChain dev _).message = .one "An unexpected error occurred"
        ∧ (classifyChain dev _).code = some "UNKNOWN_ERROR")
       simp only [classifyChain, h1, h2, h3, h4, h5, h6, h7, h8, h9, h10,
        Bool.false_eq_true, if_false]
       exact ⟨trivial, trivial, trivial, trivial⟩)
    | simp [isHttpException, Caught.instOf] at h0

/-- Witness for C9 at the caught values named by the claim: `undefined` and
the two plain `{status: 400, message}` objects the filter/sort decoders
throw on parse failure (which match none of the predicates — in particular
their `status` is `400`, not `429`, and their messages contain none of the
sniffed substrings). -/
theorem formatException_unknown_witness :
    filterParamsDecoder .unparsable = .error .invalidFilterFormat
    ∧ sortParamsDecoder (some "[oops!") = .error .badSortFormat
    ∧ ((formatException false .undefVal).status = 500
      ∧ (formatException false .undefVal).type = "UnknownError"
      ∧ (formatException false .undefVal).message
        = .one "An unexpected error occurred"
      ∧ (formatException false .undefVal).code = some "UNKNOWN_ERROR")
    ∧ ((formatException false filterFormatThrown).status = 500
      ∧ (formatException false filterFormatThrown).type = "UnknownError"
      ∧ (formatException false filterFormatThrown).message
        = .one "An unexpected error occurred"
      ∧ (formatException false filterFormatThrown).code = some "UNKNOWN_ERROR")
    ∧ ((formatException true sortFormatThrown).status = 500
      ∧ (formatException true sortFormatThrown).type = "UnknownError"
      ∧ (formatException true sortFormatThrown).message
        = .one "An unexpected error occurred"
      ∧ (formatException true sortFormatThrown).code = some "UNKNOWN_ERROR") :=
  ⟨rfl, rfl,
    formatException_unknown false .undefVal rfl rfl rfl rfl rfl rfl rfl rfl rfl rfl rfl,
    formatException_unknown false filterFormatThrown rfl rfl rfl rfl rfl rfl rfl rfl rfl rfl rfl,
    formatException_unknown true sortFormatThrown rfl rfl rfl rfl rfl rfl rfl rfl rfl rfl rfl⟩

/-! ## C3: one fragment per filter entry -/

theorem exceptMapM_length {α β : Type} (f : α → Except Unit β) :
    ∀ (xs : List α) (l : List β), xs.mapM f = .ok l → l.length = xs.length := by
  intro xs
  induction xs with
  | nil =>
    intro l h
    rw [List.mapM_nil] at h
    cases h
    rfl
  | cons x xs ih =>
    intro l h
    rw [List.mapM_cons] at h
    cases hfx : f x with
    | error e => rw [hfx] at h; cases h
    | ok b =>
      rw [hfx] at h
      cases hrest : xs.mapM f with
      | error e => rw [hrest] at h; cases h
      | ok bs =>
        rw [hrest] at h
        cases h
        simp [ih bs hrest]

/-- An entry with an operator outside the grammar leaves the initial `{}`
condition untouched — and that empty condition is still returned (to be
pushed onto the fragment list), not omitted. -/
theorem condOfEntry_unknown (af : Bool) (field op : String) (v : JVal)
    (h : ¬ op ∈ knownOps) : condOfEntry af field op v = .ok (.obj []) := by
  rw [condOfEntry.eq_def]
  split
  all_goals first
    | rfl
    | exact absurd (by decide) h

theorem condsOfItem_length (af : Bool) (it : JVal) (l : List JVal)
    (h : condsOfItem af it = .ok l) : l.length = (jsForInEntries it).length := by
  rw [condsOfItem] at h
  exact exceptMapM_length _ _ _ h

theorem buildGroup_arr_length : ∀ (items : List JVal) (l : List JVal),
    buildGroup (.arr items) = .ok l →
    l.length = (items.map (fun it => (jsForInEntries it).length)).sum := by
  intro items
  induction items with
  | nil =>
    intro l h
    have h' : Except.ok ([] : List JVal) = .ok l := h
    cases h'
    rfl
  | cons it rest ih =>
    intro l h
    have hdef : buildGroup (.arr (it :: rest))
        = ((it :: rest).mapM (condsOfItem true)).bind
          (fun parts => Except.ok parts.flatten) := rfl
    rw [hdef, List.mapM_cons] at h
    cases hit : condsOfItem true it with
    | error e => rw [hit] at h; cases h
    | ok c =>
      rw [hit] at h
      cases hrest : rest.mapM (condsOfItem true) with
      | error e => rw [hrest] at h; cases h
      | ok parts =>
        rw [hrest] at h
        have h' : Except.ok ((c :: parts).flatten) = .ok l := h
        cases h'
        have hr : buildGroup (.arr rest) = .ok parts.flatten := by
          rw [show buildGroup (.arr rest)
              = (rest.mapM (condsOfItem true)).bind
                (fun parts => Except.ok parts.flatten) from rfl, hrest]
          rfl
        have := ih parts.flatten hr
        simp only [List.flatten_cons, List.length_append, List.map_cons,
          List.sum_cons, this, condsOfItem_length true it c hit]

/-- C3 (amended): the decoder builds exactly one condition fragment per
`field__op` entry for *every* entry, known operator or not: an entry whose
operator is outside the grammar contributes the empty condition `{}`, which
is still included in the group's fragment list (it is not omitted).  Object
groups contribute one fragment per key; array groups one fragment per key of
each element; and for a filter with `and`/`or` object groups the decoded
query's `$and`/`$or` arrays have exactly as many fragments as the groups
have entries. -/
theorem decodeFilter_fragments_per_entry :
    (∀ (af : Bool) (entries : List (String × JVal)) (l : List JVal),
      condsOfItem af (.obj entries) = .ok l → l.length = entries.length)
    ∧ (∀ (items l : List JVal), buildGroup (.arr items) = .ok l →
      l.length = (items.map (fun it => (jsForInEntries it).length)).sum)
    ∧ (∀ (af : Bool) (field op : String) (v : JVal), ¬ op ∈ knownOps →
      condOfEntry af field op v = .ok (.obj []))
    ∧ (∀ (ae oe : List (String × JVal)) (q : JVal),
      filterParamsDecoder (.parsed (.obj [("and", .obj ae), ("or", .obj oe)]))
        = .ok q →
      (match objGet q "$and" with | some (.arr l) => l.length | _ => 0)
        = ae.length
      ∧ (match objGet q "$or" with | some (.arr l) => l.length | _ => 0)
        = oe.length) := by
  refine ⟨fun af entries l h => condsOfItem_length af (.obj entries) l h,
    buildGroup_arr_length, condOfEntry_unknown, ?_⟩
  intro ae oe q h
  have hinner : filterParamsDecoder
      (.parsed (.obj [("and", .obj ae), ("or", .obj oe)]))
      = (match ((condsOfItem false (.obj ae)).bind (fun andConditions =>
          (condsOfItem false (.obj oe)).bind (fun orConditions =>
            Except.ok (JVal.obj
              ((if andConditions.length > 0 then
                  [("$and", JVal.arr andConditions)] else [])
               ++ (if orConditions.length > 0 then
                  [("$or", JVal.arr orConditions)] else [])))))
          : Except Unit JVal) with
        | .ok q => .ok q
        | .error _ => .error .invalidFilterFormat) := rfl
  rw [hinner] at h
  cases hA : condsOfItem false (.obj ae) with
  | error e => rw [hA] at h; cases h
  | ok aConds =>
    rw [hA] at h
    cases hO : condsOfItem false (.obj oe) with
    | error e => rw [hO] at h; cases h
    | ok oConds =>
      rw [hO] at h
      have h' : Except.ok (JVal.obj
          ((if aConds.length > 0 then [("$and", JVal.arr aConds)] else [])
           ++ (if oConds.length > 0 then [("$or", JVal.arr oConds)] else [])))
          = Except.ok (ε := RepoError) q := h
      have hq := (Except.ok.inj h').symm
      subst hq
      have hal := condsOfItem_length false (.obj ae) aConds hA
      have hol := condsOfItem_length false (.obj oe) oConds hO
      rw [show jsForInEntries (.obj ae) = ae from rfl] at hal
      rw [show jsForInEntries (.obj oe) = oe from rfl] at hol
      constructor
      · by_cases ha : aConds.length > 0
        · rw [if_pos ha]
          simp only [objGet_obj, List.cons_append, List.find?]
          rw [show (("$and" : String) == "$and") = true from rfl]
          exact hal
        · rw [if_neg ha, List.nil_append]
          have hzero : ae.length = 0 := by omega
          rw [hzero]
          by_cases ho : oConds.length > 0
          · rw [if_pos ho]
            simp only [objGet_obj, List.find?]
            rw [show (("$or" : String) == "$and") = false from rfl]
            rfl
          · rw [if_neg ho]
            rfl
      · by_cases ho : oConds.length > 0
        · rw [if_pos ho]
          by_cases ha : aConds.length > 0
          · rw [if_pos ha]
            simp only [objGet_obj, List.cons_append, List.find?]
            rw [show (("$and" : String) == "$or") = false from rfl,
              show (("$or" : String) == "$or") = true from rfl]
            exact hol
          · rw [if_neg ha, List.nil_append]
            simp only [objGet_obj, List.find?]
            rw [show (("$or" : String) == "$or") = true from rfl]
            exact hol
        · rw [if_neg ho]
          have hzero : oe.length = 0 := by omega
          rw [hzero]
          by_cases ha : aConds.length > 0
          · rw [if_pos ha]
            simp only [List.append_nil, objGet_obj, List.find?]
            rw [show (("$and" : String) == "$or") = false from rfl]
            rfl
          · rw [if_neg ha]
            rfl

/-- C3 counterexample to the claim as stated: for the filter
`{'and': {'a__foo': 1}}` — one entry with the unknown operator `foo` — the
claim says no condition at all is produced (the fragment is omitted from the
predicate, which would leave the empty query `{}`); the decoder instead
returns `{$and: [{}]}`: the group carries one (empty) fragment. -/
theorem decodeFilter_unknown_op_counterexample :
    filterParamsDecoder (.parsed (.obj [("and", .obj [("a__foo", .num 1)])]))
      = .ok (.obj [("$and", .arr [.obj []])])
    ∧ (Except.ok (JVal.obj [("$and", .arr [.obj []])]) :
        Except RepoError JVal) ≠ .ok (.obj []) := by
  refine ⟨rfl, ?_⟩
  intro h
  rw [Except.ok.injEq] at h
  cases h

/-- Witness for the amended C3 theorem at a concrete input: a group with one
known-operator entry and one unknown-operator entry produces exactly two
fragments, the second being the empty condition. -/
theorem decodeFilter_fragments_witness :
    ([JVal.obj [("a", .obj [("$gte", .num 1)])], JVal.obj []].length
      = [("a__gte", JVal.num 1), ("b__zzz", JVal.num 2)].length)
    ∧ condOfEntry false "b" "zzz" (.num 2) = .ok (.obj []) :=
  ⟨decodeFilter_fragments_per_entry.1 false
      [("a__gte", .num 1), ("b__zzz", .num 2)]
      [JVal.obj [("a", .obj [("$gte", .num 1)])], JVal.obj []] rfl,
    decodeFilter_fragments_per_entry.2.2.1 false "b" "zzz" (.num 2) (by decide)⟩

/-! ## C8: the `day` operator builds a half-open UTC day range -/

theorem toYMD_bounds (s : String) (y m d : ℕ) (h : toYMD s = some (y, m, d)) :
    1 ≤ m ∧ m ≤ 12 ∧ 1 ≤ d ∧ d ≤ daysInMonth y m := by
  rw [toYMD] at h
  split at h
  · split at h
    · split at h
      · rename_i hcond
        have h2 := Option.some.inj h
        simp only [Prod.mk.injEq] at h2
        obtain ⟨rfl, rfl, rfl⟩ := h2
        exact hcond
      · cases h
    · cases h
  · cases h

theorem splitOnChar_mem_of_parts (sep : Char) :
    ∀ (cs : List Char), 2 ≤ (splitOnChar sep cs).length → sep ∈ cs := by
  intro cs
  induction cs with
  | nil => intro h; simp [splitOnChar] at h
  | cons c cs ih =>
    intro h
    by_cases hc : c = sep
    · rw [hc]; exact List.mem_cons_self ..
    · rw [splitOnChar, if_neg hc] at h
      refine List.mem_cons_of_mem c (ih ?_)
      cases hsp : splitOnChar sep cs with
      | nil => rw [hsp] at h; simp at h
      | cons hd tl => rw [hsp] at h; simpa using h

theorem isObjectIdHex_false_of_toYMD (s : String) (y m d : ℕ)
    (h : toYMD s = some (y, m, d)) : isObjectIdHex s = false := by
  have hdash : '-' ∈ s.data := by
    rw [toYMD] at h
    split at h
    · rename_i ys ms ds hsp
      exact splitOnChar_mem_of_parts '-' s.data (by rw [hsp]; simp)
    · cases h
  rw [isObjectIdHex]
  have hall : s.data.all isHexChar = false := by
    rw [Bool.eq_false_iff]
    intro hc
    have := List.all_eq_true.mp hc '-' hdash
    simp [isHexChar] at this
  rw [hall, Bool.and_false]

theorem dateUTC_eq_utcMillis (y m : ℕ) (day : ℤ) (hy : 100 ≤ y)
    (h1 : 1 ≤ m) (h2 : m ≤ 12) :
    dateUTC y (m - 1) day = utcMillis y m day := by
  rw [dateUTC]
  have hd : (m - 1) / 12 = 0 := Nat.div_eq_of_lt (by omega)
  have hm : (m - 1) % 12 + 1 = m := by omega
  rw [hd, hm, if_neg (show ¬ y ≤ 99 by omega), Nat.add_zero]

theorem daysBeforeMonth_succ (y m : ℕ) (h1 : 1 ≤ m) (h2 : m ≤ 11) :
    daysBeforeMonth y (m + 1) = daysBeforeMonth y m + daysInMonth y m := by
  interval_cases m <;>
    cases hly : isLeap y <;>
      simp [daysBeforeMonth, daysInMonth, hly]

theorem isLeap_iff (y : ℕ) :
    isLeap y = true ↔ ((y % 4 = 0 ∧ ¬ y % 100 = 0) ∨ y % 400 = 0) := by
  rw [isLeap]
  simp

theorem daysBeforeYear_succ_leap (y : ℕ) (h : isLeap y = true) :
    daysBeforeYear (y + 1) = daysBeforeYear y + 366 := by
  have hp := (isLeap_iff y).mp h
  rw [daysBeforeYear, daysBeforeYear]
  omega

theorem daysBeforeYear_succ_nonleap (y : ℕ) (h : isLeap y = false) :
    daysBeforeYear (y + 1) = daysBeforeYear y + 365 := by
  have hp : ¬ ((y % 4 = 0 ∧ ¬ y % 100 = 0) ∨ y % 400 = 0) := by
    rw [← isLeap_iff, h]
    simp
  rw [daysBeforeYear, daysBeforeYear]
  omega

theorem utcMillis_next_day (y m d : ℕ) (h1 : 1 ≤ m) (h2 : m ≤ 12)
    (h3 : 1 ≤ d) (h4 : d ≤ daysInMonth y m) :
    utcMillis y m ((d : ℤ) + 1)
      = utcMillis (nextCalendarDay y m d).1 (nextCalendarDay y m d).2.1
          (nextCalendarDay y m d).2.2 := by
  rw [nextCalendarDay]
  by_cases hlt : d < daysInMonth y m
  · rw [if_pos hlt]
    rw [utcMillis, utcMillis]
    push_cast
    ring
  · rw [if_neg hlt]
    have hd : d = daysInMonth y m := by omega
    by_cases hm : m < 12
    · rw [if_pos hm]
      rw [utcMillis, utcMillis, daysBeforeMonth_succ y m h1 (by omega)]
      rw [hd]
      push_cast
      ring
    · rw [if_neg hm]
      have hm12 : m = 12 := by omega
      subst hm12
      have hd31 : d = 31 := by rw [hd]; rfl
      subst hd31
      have hbm1 : daysBeforeMonth (y + 1) 1 = 0 := rfl
      cases hly : isLeap y
      · have hbm : daysBeforeMonth y 12 = 334 := by
          simp [daysBeforeMonth, hly]
        rw [utcMillis, utcMillis, daysBeforeYear_succ_nonleap y hly, hbm, hbm1]
        push_cast
        ring
      · have hbm : daysBeforeMonth y 12 = 335 := by
          simp [daysBeforeMonth, hly]
        rw [utcMillis, utcMillis, daysBeforeYear_succ_leap y hly, hbm, hbm1]
        push_cast
        ring

/-- C8 (amended): a `field__day` entry whose value is a calendar-date string
`YYYY-MM-DD` with year component at least `100` decodes to the half-open
range `{field: {$gte: that date at 00:00 UTC, $lt: the next calendar day at
00:00 UTC}}`; the upper bound is both the UTC instant of the next calendar
day and exactly one day (86400000 ms) after the lower bound.  For year
components `0–99` the instants are shifted to year `1900 + y` by
`Date.UTC`'s `MakeFullYear` rule (see the counterexample). -/
theorem day_filter_half_open_range (af : Bool) (field s : String) (y m d : ℕ)
    (h : toYMD s = some (y, m, d)) (hy : 100 ≤ y) :
    condOfEntry af field "day" (.str s)
      = .ok (.obj [(field, .obj
          [("$gte", .date (utcMillis y m d)),
           ("$lt", .date (utcMillis (nextCalendarDay y m d).1
              (nextCalendarDay y m d).2.1 (nextCalendarDay y m d).2.2))])])
    ∧ utcMillis (nextCalendarDay y m d).1 (nextCalendarDay y m d).2.1
        (nextCalendarDay y m d).2.2 = utcMillis y m d + 86400000 := by
  obtain ⟨h1, h2, h3, h4⟩ := toYMD_bounds s y m d h
  have hhex := isObjectIdHex_false_of_toYMD s y m d h
  have hnext := utcMillis_next_day y m d h1 h2 h3 h4
  have hpv : parseValue field (.str s) "day"
      = .obj [("$gte", .date (dateUTC y (m - 1) (d : ℤ))),
              ("$lt", .date (dateUTC y (m - 1) ((d : ℤ) + 1)))] := by
    simp [parseValue, hhex, h]
  have hb : condOfEntry af field "day" (.str s) = (do
      let g ← jsMember (parseValue field (.str s) "day") "$gte"
      let l ← jsMember (parseValue field (.str s) "day") "$lt"
      pure (.obj [(field, .obj [("$gte", g), ("$lt", l)])]) : Except Unit JVal)
    := rfl
  have hcond : condOfEntry af field "day" (.str s)
      = .ok (.obj [(field, .obj
          [("$gte", .date (dateUTC y (m - 1) (d : ℤ))),
           ("$lt", .date (dateUTC y (m - 1) ((d : ℤ) + 1)))])]) := by
    rw [hb, hpv]
    rfl
  have hone : utcMillis y m ((d : ℤ) + 1) = utcMillis y m d + 86400000 := by
    rw [utcMillis, utcMillis]
    ring
  rw [hcond, dateUTC_eq_utcMillis y m (d : ℤ) hy h1 h2,
    dateUTC_eq_utcMillis y m ((d : ℤ) + 1) hy h1 h2, hnext]
  exact ⟨rfl, by rw [← hnext, hone]⟩

/-- Witness for C8 at the claim's concrete example: the `day` filter on
`"2024-03-15"` produces the range
`[2024-03-15T00:00:00Z, 2024-03-16T00:00:00Z)` (in epoch milliseconds,
`[1710460800000, 1710547200000)`), also through the full decoder. -/
theorem day_filter_half_open_range_witness :
    (condOfEntry false "createdAt" "day" (.str "2024-03-15")
      = .ok (.obj [("createdAt", .obj
          [("$gte", .date (utcMillis 2024 3 15)),
           ("$lt", .date (utcMillis (nextCalendarDay 2024 3 15).1
              (nextCalendarDay 2024 3 15).2.1 (nextCalendarDay 2024 3 15).2.2))])])
      ∧ utcMillis (nextCalendarDay 2024 3 15).1 (nextCalendarDay 2024 3 15).2.1
          (nextCalendarDay 2024 3 15).2.2 = utcMillis 2024 3 15 + 86400000)
    ∧ utcMillis 2024 3 15 = 1710460800000
    ∧ utcMillis 2024 3 16 = 1710547200000
    ∧ filterParamsDecoder
        (.parsed (.obj [("and", .obj [("createdAt__day", .str "2024-03-15")])]))
      = .ok (.obj [("$and", .arr [.obj [("createdAt",
          .obj [("$gte", .date 1710460800000),
                ("$lt", .date 1710547200000)])]])]) :=
  ⟨day_filter_half_open_range false "createdAt" "2024-03-15" 2024 3 15 rfl
      (by norm_num),
    by decide, by decide, rfl⟩

/-- C8 counterexample to the claim as stated: the in-scope calendar-date
string `"0050-01-01"` does not produce the range starting at proleptic
0050-01-01T00:00:00Z — `Date.UTC`'s `MakeFullYear` rule maps year argument
`50` to `1950`, so the produced range is
`[1950-01-01T00:00:00Z, 1950-01-02T00:00:00Z)`. -/
theorem day_filter_year50_counterexample :
    condOfEntry false "createdAt" "day" (.str "0050-01-01")
      = .ok (.obj [("createdAt", .obj
          [("$gte", .date (utcMillis 1950 1 1)),
           ("$lt", .date (utcMillis 1950 1 2))])])
    ∧ utcMillis 1950 1 1 = -631152000000
    ∧ utcMillis 1950 1 1 ≠ utcMillis 50 1 1 := by
  refine ⟨rfl, by decide, ?_⟩
  intro h
  rw [show utcMillis 1950 1 1 = -631152000000 from by decide,
    show utcMillis 50 1 1 = -60589296000000 from by decide] at h
  exact absurd h (by norm_num)

/-! ### C5: the allow-list check (`getNonFilterableFields`) -/

/-- Collecting the non-allow-listed keys of an entry list is filtering the
full key list by non-membership in the allow-list. -/
theorem keysFilterMap (fields : List String) (l : List (String × JVal)) :
    l.filterMap (fun kv => if fields.contains kv.1 then none else some kv.1)
      = (l.map (fun kv => kv.1)).filter (fun k => !(fields.contains k)) := by
  induction l with
  | nil => rfl
  | cons kv rest ih =>
    by_cases h : kv.1 ∈ fields <;>
      · simp [List.filterMap_cons, List.filter_cons, h]
        simpa using ih

/-- Against the empty allow-list every key is collected. -/
theorem keysFilterNil (l : List (String × JVal)) :
    l.filterMap (fun kv =>
        if ([] : List String).contains kv.1 then none else some kv.1)
      = l.map (fun kv => kv.1) := by
  induction l with
  | nil => rfl
  | cons kv rest ih =>
    simp [List.filterMap_cons]
    simpa using ih

theorem keysFilter (fields : List String) (l : List (String × JVal)) :
    l.filterMap (fun kv => if fields.contains kv.1 then none else some kv.1)
      = (l.filterMap (fun kv =>
          if ([] : List String).contains kv.1 then none else some kv.1)).filter
          (fun k => !(fields.contains k)) := by
  rw [keysFilterNil]
  exact keysFilterMap fields l

/-- Appending two collection results commutes with filtering both by the
allow-list, in the `Except` monad. -/
theorem except_append_map (fields : List String)
    (x y x0 y0 : Except Unit (List String))
    (hx : x = x0.map (List.filter fun k => !(fields.contains k)))
    (hy : y = y0.map (List.filter fun k => !(fields.contains k))) :
    x.bind (fun a => y.bind (fun b => Except.ok (a ++ b)))
      = (x0.bind (fun a => y0.bind (fun b => Except.ok (a ++ b)))).map
          (List.filter fun k => !(fields.contains k)) := by
  subst hx hy
  cases x0 <;> cases y0 <;> simp [Except.map, Except.bind, List.filter_append]

/-- `checkFields` with an allow-list collects exactly the referenced keys
(the result of the check against the empty allow-list) that are missing from
the allow-list, and it throws on the same inputs. -/
theorem checkFields_eq_filter (fields : List String) (v : JVal) :
    checkFields fields v
      = (checkFields [] v).map (List.filter fun k => !(fields.contains k)) := by
  refine checkFields.induct fields
    (fun t => checkFields fields t
      = (checkFields [] t).map (List.filter fun k => !(fields.contains k)))
    (fun l => checkEntryList fields l
      = (checkEntryList [] l).map (List.filter fun k => !(fields.contains k)))
    (fun xs => checkSubList fields xs
      = (checkSubList [] xs).map (List.filter fun k => !(fields.contains k)))
    rfl rfl (fun kvs ih => ih) ?_ rfl ?_ rfl ?_ ?_ ?_ v
  · intro t h1 h2 h3
    cases t with
    | null => exact absurd rfl h1
    | undefined => exact absurd rfl h2
    | obj kvs => exact absurd rfl (h3 kvs)
    | bool b => exact congrArg Except.ok (keysFilter fields _)
    | num q => exact congrArg Except.ok (keysFilter fields _)
    | str s => exact congrArg Except.ok (keysFilter fields _)
    | oid s => exact congrArg Except.ok (keysFilter fields _)
    | date n => exact congrArg Except.ok (keysFilter fields _)
    | regexp p fl => exact congrArg Except.ok (keysFilter fields _)
    | arr xs => exact congrArg Except.ok (keysFilter fields _)
  · intro sub rest ih1 ih3
    simp only [checkSubList]
    exact except_append_map fields _ _ _ _ ih1 ih3
  · intro k rest hk xs ih2 ih3
    rcases hk with rfl | rfl <;>
      exact except_append_map fields _ _ _ _ ih3 ih2
  · intro k v rest hk hv ih2
    rcases hk with rfl | rfl <;>
      (cases v <;> first | exact absurd rfl (hv _) | rfl)
  · intro k v rest hk ih2
    cases v <;>
      · simp only [checkEntryList]
        rw [if_neg hk, if_neg hk]
        refine except_append_map fields _ _ _ _ ?_ ih2
        show Except.ok (if fields.contains k then [] else [k])
          = (Except.ok (if ([] : List String).contains k then [] else [k])).map
              (List.filter fun x => !(fields.contains x))
        by_cases h : k ∈ fields <;> simp [Except.map, List.filter_cons, h]

/-- Inverting a successful `Except` bind. -/
theorem except_bind_ok_inv {α β : Type} {x : Except Unit α}
    {f : α → Except Unit β} {b : β} (h : x.bind f = .ok b) :
    ∃ a, x = .ok a ∧ f a = .ok b := by
  cases x with
  | error e => simp [Except.bind] at h
  | ok a => exact ⟨a, rfl, h⟩

/-- A successfully decoded filter is always an object value. -/
theorem filterParamsDecoder_obj (rf : RawFilter) (q : JVal)
    (h : filterParamsDecoder rf = .ok q) : ∃ kvs, q = JVal.obj kvs := by
  cases rf with
  | absent => exact ⟨[], (Except.ok.inj h).symm⟩
  | unparsable => cases h
  | parsed v =>
    rw [filterParamsDecoder] at h
    split at h
    · rename_i q' heq
      obtain ⟨a1, _, h2⟩ := except_bind_ok_inv heq
      obtain ⟨a2, _, h3⟩ := except_bind_ok_inv h2
      obtain ⟨a3, _, h4⟩ := except_bind_ok_inv h3
      obtain ⟨a4, _, h5⟩ := except_bind_ok_inv h4
      exact ⟨_, ((Except.ok.inj h).symm.trans (Except.ok.inj h5).symm : q = _)⟩
    · cases h

/-- C5 (amended): for every successfully decoded filter whose reference
traversal succeeds, listing referenced fields `refs`, the allow-list check
returns `null` exactly when every referenced field is allow-listed, throws
exactly when some referenced field is missing from the allow-list, with a
singular message naming the field when exactly one offending occurrence was
collected and a pluralized message joining all of them otherwise. -/
theorem getNonFilterableFields_spec (rf : RawFilter) (q : JVal)
    (fields refs : List String)
    (hdec : filterParamsDecoder rf = .ok q)
    (hrefs : checkFields [] q = .ok refs) :
    (getNonFilterableFields q fields = .ok none
        ↔ ∀ k ∈ refs, fields.contains k = true)
    ∧ ((∃ e, getNonFilterableFields q fields = .error e)
        ↔ ∃ k ∈ refs, fields.contains k = false)
    ∧ (∀ k, refs.filter (fun k' => !(fields.contains k')) = [k] →
        getNonFilterableFields q fields = .error (.fieldNotFilterable
          ("Bad Format:Field is not Filterable: " ++ k)))
    ∧ (2 ≤ (refs.filter (fun k' => !(fields.contains k'))).length →
        getNonFilterableFields q fields = .error (.fieldNotFilterable
          ("Fields are not Filterable: "
            ++ joinComma (refs.filter (fun k' => !(fields.contains k')))))) := by
  obtain ⟨kvs, rfl⟩ := filterParamsDecoder_obj rf q hdec
  set offs := refs.filter (fun k' => !(fields.contains k')) with hoffs
  have hcf : checkFields fields (JVal.obj kvs) = .ok offs := by
    rw [checkFields_eq_filter fields (JVal.obj kvs), hrefs]; rfl
  have hmain : getNonFilterableFields (JVal.obj kvs) fields
      = (if offs.length > 0 then
          Except.error (RepoError.fieldNotFilterable
            (if offs.length = 1 then
              "Bad Format:Field is not Filterable: " ++ offs.headI
            else "Fields are not Filterable: " ++ joinComma offs))
        else Except.ok none) := by
    unfold getNonFilterableFields
    rw [hcf]
    rfl
  refine ⟨⟨?_, ?_⟩, ⟨?_, ?_⟩, ?_, ?_⟩
  · intro hok k hk
    cases hb : fields.contains k with
    | true => rfl
    | false =>
      have hmem : k ∈ offs := List.mem_filter.mpr ⟨hk, by simpa using hb⟩
      have hlen : offs.length > 0 :=
        List.length_pos.mpr (List.ne_nil_of_mem hmem)
      rw [hmain, if_pos hlen] at hok
      cases hok
  · intro hall
    have hnil : offs = [] := by
      rw [hoffs]
      refine List.filter_eq_nil_iff.mpr (fun a ha => ?_)
      simpa using hall a ha
    rw [hmain, hnil]
    rfl
  · rintro ⟨e, he⟩
    by_contra hc
    push_neg at hc
    have hnil : offs = [] := by
      rw [hoffs]
      refine List.filter_eq_nil_iff.mpr (fun a ha => ?_)
      have hthis := hc a ha
      cases hb : fields.contains a with
      | true => simp [hb]
      | false => exact absurd hb hthis
    rw [hmain, hnil] at he
    cases he
  · rintro ⟨k, hk, hkc⟩
    have hmem : k ∈ offs := List.mem_filter.mpr ⟨hk, by simpa using hkc⟩
    have hlen : offs.length > 0 :=
      List.length_pos.mpr (List.ne_nil_of_mem hmem)
    exact ⟨_, by rw [hmain, if_pos hlen]⟩
  · intro k hk1
    rw [hmain, hk1]
    rfl
  · intro h2
    rw [hmain, if_pos (by omega), if_neg (by omega)]

/-- C5 counterexample: the decoded filter of `{'and': {'$and': 5}}` carries a
condition whose own key is the connective name `$and` with a non-array value;
the allow-list check throws a `TypeError` on it (from calling `.forEach` on a
non-array) even though no referenced field is outside the allow-list, instead
of returning without error. -/
theorem getNonFilterableFields_typeError_counterexample :
    filterParamsDecoder (.parsed (.obj [("and", .obj [("$and", .num 5)])]))
        = .ok (.obj [("$and", .arr [.obj [("$and", .num 5)]])])
    ∧ getNonFilterableFields (.obj [("$and", .arr [.obj [("$and", .num 5)]])]) []
        = .error .jsTypeError
    ∧ Except.error RepoError.jsTypeError
        ≠ (.ok none : Except RepoError (Option (List String))) :=
  ⟨rfl, rfl, fun h => Except.noConfusion h⟩

/-- Witness for the C5 theorem: the filter `{'and': {'a__eq': 1, 'b__eq': 2}}`
checked against the allow-list `['a']` throws the singular message naming
`b`. -/
theorem getNonFilterableFields_spec_witness :
    getNonFilterableFields
        (.obj [("$and", .arr [.obj [("a", .num 1)], .obj [("b", .num 2)]])])
        ["a"]
      = .error (.fieldNotFilterable "Bad Format:Field is not Filterable: b") := by
  have h := (getNonFilterableFields_spec
      (.parsed (.obj [("and", .obj [("a__eq", .num 1), ("b__eq", .num 2)])]))
      (.obj [("$and", .arr [.obj [("a", .num 1)], .obj [("b", .num 2)]])])
      ["a"] ["a", "b"] rfl rfl).2.2.1 "b" rfl
  exact h


/-! ### C1: `getAllData` with and without aggregation -/

/-- Sorting with the empty sort specification keeps the list unchanged. -/
theorem sortDocs_nilSpec (l : List JVal) : sortDocs (cmpBySpec []) l = l := by
  induction l with
  | nil => rfl
  | cons a rest ih =>
    show insertSorted (cmpBySpec []) a (sortDocs (cmpBySpec []) rest) = a :: rest
    rw [ih]
    cases rest <;> rfl

/-- Evaluation of the two-stage pipeline `getAllData` builds:
`$match` then one `$facet` with a sorted/paged/unset `data` branch and a
`$count` branch. -/
theorem facet_run (st : List JVal) (base : JVal) (spec : List (String × ℤ))
    (skip limit : JsNum) (merged : List String) :
    runPipeline [Stage.matchQ base,
        Stage.facetS [("data", [Stage.sortS spec, Stage.skipS skip, Stage.limitS limit]
            ++ [Stage.unsetS merged]),
          ("totalCount", [Stage.countS "count"])]] st
      = [.obj [("data", .arr ((limitApply limit (skipApply skip
            (sortDocs (cmpBySpec spec) (st.filter (fun d => docMatches d base))))).map
              (removeKeys merged))),
          ("totalCount", .arr (if (st.filter (fun d => docMatches d base)).length = 0 then []
            else [.obj [("count", .num ((st.filter (fun d => docMatches d base)).length : ℚ))]]))]] := rfl

/-- Extracting the `data` branch from the facet result. -/
theorem facetData_pair (D C : List JVal) :
    Repo.facetData [.obj [("data", .arr D), ("totalCount", .arr C)]] = D := rfl

/-- Extracting the count from the facet result: the `$count` stage emits no
document on an empty input, and `|| 0` maps both that absence and an actual
zero to `0`. -/
theorem facetCount_pair (D : List JVal) (n : ℕ) :
    Repo.facetCount [.obj [("data", .arr D), ("totalCount", .arr
        (if n = 0 then [] else [.obj [("count", .num (n : ℚ))]]))]] = (n : ℚ) := by
  by_cases h : n = 0
  · subst h
    show (0 : ℚ) = ((0 : ℕ) : ℚ)
    norm_num
  · rw [if_neg h]
    show (if (n : ℚ) ≠ 0 then (n : ℚ) else 0) = (n : ℚ)
    rw [if_pos (Nat.cast_ne_zero.mpr h)]

/-- Binding a success in the repository error monad. -/
theorem exceptR_bind_ok {α β : Type} (a : α) (g : α → Except RepoError β) :
    ((Except.ok a : Except RepoError α) >>= g) = g a := rfl

/-- Binding a failure in the repository error monad. -/
theorem exceptR_bind_err {α β : Type} (e : RepoError) (g : α → Except RepoError β) :
    ((Except.error e : Except RepoError α) >>= g) = Except.error e := rfl

/-- The select string `'-isDeleted -__v'` built from the default exclusion
list applies the same projection as `$unset` of those fields. -/
theorem applySelect_default_unset :
    applySelect (.strSpec (joinSpace (["isDeleted", "__v"].map (fun f => "-" ++ f))))
      = removeKeys ["isDeleted", "__v"] :=
  funext (fun _ => rfl)

/-- The aggregation branch of `getAllData` and its find branch agree on the
returned documents and on the pagination input, for the default exclusion
list and an absent project stage. -/
theorem agg_eq_find_branch (st : List JVal) (base : JVal)
    (sort : Option (List (String × ℤ))) (skip limit : JsNum) (pp : PagRequest) :
    (Repo.facetData (runPipeline [Stage.matchQ base,
        Stage.facetS [("data", [Stage.sortS (sort.getD []), Stage.skipS skip, Stage.limitS limit]
            ++ [Stage.unsetS ["isDeleted", "__v"]]),
          ("totalCount", [Stage.countS "count"])]] st),
      resultToPagination (Repo.facetCount (runPipeline [Stage.matchQ base,
        Stage.facetS [("data", [Stage.sortS (sort.getD []), Stage.skipS skip, Stage.limitS limit]
            ++ [Stage.unsetS ["isDeleted", "__v"]]),
          ("totalCount", [Stage.countS "count"])]] st)) pp)
      = (((limitApply limit (skipApply skip (match sort with
            | some spec => sortDocs (cmpBySpec spec) (st.filter (fun d => docMatches d base))
            | none => st.filter (fun d => docMatches d base)))).map
          (applySelect (.strSpec (joinSpace (["isDeleted", "__v"].map (fun f => "-" ++ f)))))),
        resultToPagination ((st.filter (fun d => docMatches d base)).length : ℚ) pp) := by
  rw [Prod.mk.injEq]
  refine ⟨?_, ?_⟩
  · rw [facet_run, facetData_pair, applySelect_default_unset]
    cases sort with
    | none =>
      simp only [Option.getD_none]
      rw [sortDocs_nilSpec]
    | some spec =>
      simp only [Option.getD_some]
  · rw [facet_run, facetCount_pair]


/-- C1: with no caller-supplied aggregation stages, no project stage and no
extra exclusion fields, `getAllData` returns the same `data` (same documents
in the same order) and the same `pagination` whether `useAggregation` is
`true` or `false`, for every collection state, filter input, sort string and
page/length pair. -/
theorem getAllData_agg_find_equiv (st : List JVal) (f : RawFilter)
    (sortStr : Option String) (page pageLen : String) (ff : List String) :
    Repo.getAllData st ⟨f, sortStr, page, pageLen, ff, [], none, true, []⟩
      = Repo.getAllData st ⟨f, sortStr, page, pageLen, ff, [], none, false, []⟩ := by
  simp only [Repo.getAllData]
  cases hf : filterParamsDecoder f with
  | error e => simp only [hf, exceptR_bind_err]
  | ok filters =>
    simp only [hf, exceptR_bind_ok]
    cases hs : sortParamsDecoder (some (sortStr.getD "-createdAt")) with
    | error e => simp only [hs, exceptR_bind_err]
    | ok sort =>
      simp only [hs, exceptR_bind_ok]
      cases hnf : getNonFilterableFields filters ff with
      | error e => simp only [hnf, exceptR_bind_err]
      | ok x =>
        simp only [hnf, exceptR_bind_ok, reduceIte]
        exact congrArg pure (agg_eq_find_branch st
          (Repo.spreadWith filters "isDeleted" (.obj [("$ne", .bool true)]))
          sort (queryToPagination page pageLen).skip
          (queryToPagination page pageLen).limit
          (queryToPagination page pageLen))

end Spec2Proof
